import Mathlib

/-!
# Verification of the payment-reconciliation engine

A shallow embedding, in Lean 4, of the pure core of the
`payment-reconciliation-backend` repository, together with proofs and
refutations of the frozen specification claims.

Conventions of the embedding:

* JavaScript numbers are modelled as rationals (`ℚ`); `NaN` is modelled by
  `Option` (`none` = not-a-number).  Infinite values do not arise on the
  inputs considered here and are outside the model.
* JavaScript `Date` values are modelled by their UTC day index (`ℤ`), since
  the code only ever inspects dates through
  `Date.UTC(getFullYear(), getMonth(), getDate())`, i.e. through the calendar
  day.  `Date.UTC` of a calendar day is exactly `dayIndex * MS_PER_DAY`.
* `undefined` / `null` string fields are modelled with `Option String`.
* The Jaro–Winkler primitive `natural.JaroWinklerDistance` comes from a
  third-party library that is not part of this repository; the definitions
  take it as an explicit parameter `jw : String → String → ℚ`
  (its value in `[0,1]` is never needed by the claims below, all of which
  are independent of the concrete similarity kernel).
-/

set_option maxHeartbeats 1000000

deriving instance DecidableEq for Except

namespace Reconciliation

/-- `Math.round(q * 100) / 100` — JavaScript rounds half toward +∞,
which is `⌊x + 1/2⌋`. -/
def round2 (q : ℚ) : ℚ := ((⌊q * 100 + 1/2⌋ : ℤ) : ℚ) / 100

/-! ## §4.A Normalizer (`src/matching/normalizeName.ts`) -/

/-- `NOISE_WORDS` from `src/matching/constants.ts`. -/
def NOISE_WORDS : List String :=
  ["PAYMENT", "DEPOSIT", "TRANSFER", "WITHDRAWAL", "CREDIT", "DEBIT",
   "CHK", "CHECK", "CHEQUE", "ACH", "WIRE", "EFT",
   "ONLINE", "ELECTRONIC", "EBANK", "INTERNET", "MOBILE",
   "PMT", "DEP", "TRF", "TXN", "REF", "POS",
   "FROM", "TO", "FOR", "THE", "AND",
   "PENDING", "CLEARED", "POSTED", "MEMO"]

/-- Step 2 of `normalizeName`: after uppercasing, every character outside
`[A-Z0-9\s]` is replaced by a space (regex `/[^A-Z0-9\s]/g`). -/
def normalizeChar (c : Char) : Char :=
  if ('A' ≤ c ∧ c ≤ 'Z') ∨ ('0' ≤ c ∧ c ≤ '9') ∨ c.isWhitespace then c else ' '

/-- Splits a character list at every separator recognised by `p`
(separators are dropped; empty segments are kept, as with
`String.split` / JavaScript `split`). -/
def splitChars (p : Char → Bool) : List Char → List (List Char)
  | [] => [[]]
  | c :: rest =>
      let r := splitChars p rest
      if p c then [] :: r
      else
        match r with
        | [] => [[c]]
        | w :: ws => (c :: w) :: ws

/-- String splitting on a character predicate.  `splitString p s` agrees
with `s.split p` (and, once empty segments are filtered out, with the
JavaScript `s.split(/\s+/)` used by the source). -/
def splitString (p : Char → Bool) (s : String) : List String :=
  (splitChars p s.toList).map String.mk

/-- `normalizeName` from `src/matching/normalizeName.ts`:
uppercase, strip punctuation, drop empty and noise tokens, rejoin. -/
def normalizeName (input : String) : String :=
  if input = "" then ""
  else
    let upper := String.mk (input.toList.map Char.toUpper)
    let cleaned := String.mk (upper.toList.map normalizeChar)
    let words := (splitString Char.isWhitespace cleaned).filter
      (fun w => w ≠ "" ∧ w ∉ NOISE_WORDS)
    String.intercalate " " words

/-! ## §4.B Similarity scorer (`src/matching/nameSimilarity.ts`) -/

/-- `calculateNameSimilarity`: empty ⇒ 0, identical ⇒ 100, otherwise the
Jaro–Winkler value scaled to 0–100 and rounded to two decimals
(`Math.round(similarity * 100 * 100) / 100`). -/
def calculateNameSimilarity (jw : String → String → ℚ) (a b : String) : ℚ :=
  if a = "" ∨ b = "" then 0
  else if a = b then 100
  else round2 (jw a b * 100)

/-- Insertion of an element into a sorted list (ascending w.r.t. `le`). -/
def insertSorted (le : String → String → Bool) (x : String) :
    List String → List String
  | [] => [x]
  | y :: ys => if le x y then x :: y :: ys else y :: insertSorted le x ys

/-- Structural insertion sort (ascending).  `Array.prototype.sort()` with the
default comparator sorts strings ascending by code units; any correct
ascending sort produces the same list of strings. -/
def sortStrings (le : String → String → Bool) (l : List String) : List String :=
  l.foldr (insertSorted le) []

/-- `a.split(' ').sort().join(' ')` — split on single spaces, sort
lexicographically ascending, rejoin. -/
def sortWordsJs (s : String) : String :=
  String.intercalate " "
    (sortStrings (fun a b => decide (¬ b < a)) (splitString (· = ' ') s))

/-- `calculateNameSimilarityOrderIndependent`: the maximum of the direct
similarity and the similarity of the token-sorted variants. -/
def calculateNameSimilarityOrderIndependent
    (jw : String → String → ℚ) (a b : String) : ℚ :=
  if a = "" ∨ b = "" then 0
  else
    max (calculateNameSimilarity jw a b)
      (calculateNameSimilarity jw (sortWordsJs a) (sortWordsJs b))

/-! ## §4.C Date proximity (`src/matching/dateProximity.ts`)

Dates are UTC day indices; `daysBetween` computes
`Math.abs(Math.floor((utc2 - utc1) / MS_PER_DAY))`, which on exact
midnight-UTC values is the absolute day difference. -/

def daysBetween (date1 date2 : ℤ) : ℕ := (date2 - date1).natAbs

/-- `calculateDateScore`: tiered bonus/penalty from the day delta. -/
def calculateDateScore (transactionDate dueDate : ℤ) : ℚ :=
  let difference := daysBetween transactionDate dueDate
  if difference ≤ 3 then 15
  else if difference ≤ 7 then 10
  else if difference ≤ 15 then 5
  else if difference > 30 then -10
  else 0

/-! ## §4.D Ambiguity penalty (`src/matching/ambiguityPenalty.ts`) -/

/-- `calculateAmbiguityPenalty`: `n ≤ 0 → 0`, `1 → SINGLE (0)`,
`2 → TWO (5)`, else `MULTIPLE (10)`.  Candidate counts are `ℕ` here
(they arise as list lengths). -/
def calculateAmbiguityPenalty (candidateCount : ℕ) : ℚ :=
  if candidateCount ≤ 0 then 0
  else if candidateCount = 1 then 0
  else if candidateCount = 2 then 5
  else 10

/-! ## §4.E Confidence combiner (`src/matching/confidenceCalculator.ts`) -/

/-- `NAME_SIMILARITY_WEIGHT` from `src/matching/constants.ts`. -/
def NAME_SIMILARITY_WEIGHT : ℚ := 1

/-- `AUTO_MATCHED_THRESHOLD` from `src/matching/constants.ts`. -/
def AUTO_MATCHED_THRESHOLD : ℚ := 95

/-- `NEEDS_REVIEW_THRESHOLD` from `src/matching/constants.ts`. -/
def NEEDS_REVIEW_THRESHOLD : ℚ := 60

/-- The `ConfidenceBreakdown` record stored in `match_details`. -/
structure ConfidenceBreakdown where
  rawNameSimilarity : ℚ
  weightedNameScore : ℚ
  dateScore : ℚ
  ambiguityPenalty : ℚ
  rawTotal : ℚ
  deriving Repr, DecidableEq

/-- `calculateConfidence`: weighted name + date − ambiguity penalty,
clamped to `[0,100]` and rounded to two decimals. -/
def calculateConfidence (nameSimilarity dateScore : ℚ) (candidateCount : ℕ) :
    ℚ × ConfidenceBreakdown :=
  let weightedNameScore := nameSimilarity * NAME_SIMILARITY_WEIGHT
  let ambiguityPenalty := calculateAmbiguityPenalty candidateCount
  let rawTotal := weightedNameScore + dateScore - ambiguityPenalty
  let confidenceScore := max 0 (min 100 rawTotal)
  let roundedScore := round2 confidenceScore
  (roundedScore,
   { rawNameSimilarity := round2 nameSimilarity
     weightedNameScore := round2 weightedNameScore
     dateScore := dateScore
     ambiguityPenalty := ambiguityPenalty
     rawTotal := round2 rawTotal })

/-! ## §4.F Matcher (`src/matching/matchTransaction.ts`) -/

inductive MatchStatus where
  | AUTO_MATCHED
  | NEEDS_REVIEW
  | UNMATCHED
  deriving Repr, DecidableEq

/-- `determineStatus` from `src/matching/matchTransaction.ts`. -/
def determineStatus (confidenceScore : ℚ) : MatchStatus :=
  if confidenceScore ≥ AUTO_MATCHED_THRESHOLD then .AUTO_MATCHED
  else if confidenceScore ≥ NEEDS_REVIEW_THRESHOLD then .NEEDS_REVIEW
  else .UNMATCHED

/-- Candidate invoice input to the matcher (`InvoiceInput`). -/
structure InvoiceInput where
  id : String
  invoiceNumber : String
  customerName : String
  dueDate : ℤ
  deriving Repr, DecidableEq

/-- Bank transaction input to the matcher (`BankTransactionInput`). -/
structure BankTransactionInput where
  transactionDate : ℤ
  description : String
  amount : ℚ
  deriving Repr, DecidableEq

/-- A scored candidate (`CandidateScore`). -/
structure CandidateScore where
  invoice : InvoiceInput
  normalizedName : String
  nameSimilarity : ℚ
  dateScore : ℚ
  preliminaryScore : ℚ
  deriving Repr, DecidableEq

/-- `match_details` of a `MatchResult`.  The human-readable `explanation`
string of the source is presentation-only output of `generateExplanation`
(pure number formatting) and is not part of the model. -/
structure MatchDetails where
  breakdown : ConfidenceBreakdown
  normalizedDescription : String
  normalizedCustomerName : Option String
  candidateCount : ℕ
  deriving Repr, DecidableEq

/-- The matcher's result (`MatchResult`). -/
structure MatchResult where
  matchedInvoiceId : Option String
  matchedInvoiceNumber : Option String
  confidenceScore : ℚ
  status : MatchStatus
  matchDetails : MatchDetails
  deriving Repr, DecidableEq

/-- `scoreCandidate`: similarity of the normalized description and the
normalized customer name, the date score against the due date, and the
preliminary ranking score `nameSimilarity * 0.7 + dateScore`. -/
def scoreCandidate (jw : String → String → ℚ)
    (normalizedDescription : String) (transactionDate : ℤ)
    (invoice : InvoiceInput) : CandidateScore :=
  let normalizedName := normalizeName invoice.customerName
  let nameSimilarity :=
    calculateNameSimilarityOrderIndependent jw normalizedDescription normalizedName
  let dateScore := calculateDateScore transactionDate invoice.dueDate
  { invoice := invoice
    normalizedName := normalizedName
    nameSimilarity := nameSimilarity
    dateScore := dateScore
    preliminaryScore := nameSimilarity * (7/10) + dateScore }

/-- The `Array.prototype.reduce` of the source,
`(best, current) => current.preliminaryScore > best.preliminaryScore ? current : best`,
with the first element as the initial accumulator. -/
def reduceBest : CandidateScore → List CandidateScore → CandidateScore
  | best, [] => best
  | best, current :: rest =>
      reduceBest (if current.preliminaryScore > best.preliminaryScore then current else best) rest

/-- `matchTransaction` from `src/matching/matchTransaction.ts`. -/
def matchTransaction (jw : String → String → ℚ)
    (transaction : BankTransactionInput) (candidates : List InvoiceInput) :
    MatchResult :=
  let normalizedDescription := normalizeName transaction.description
  match candidates with
  | [] =>
      { matchedInvoiceId := none
        matchedInvoiceNumber := none
        confidenceScore := 0
        status := .UNMATCHED
        matchDetails :=
          { breakdown :=
              { rawNameSimilarity := 0, weightedNameScore := 0, dateScore := 0,
                ambiguityPenalty := 0, rawTotal := 0 }
            normalizedDescription := normalizedDescription
            normalizedCustomerName := none
            candidateCount := 0 } }
  | c :: rest =>
      let scoredHead := scoreCandidate jw normalizedDescription transaction.transactionDate c
      let scoredRest := rest.map (scoreCandidate jw normalizedDescription transaction.transactionDate)
      let bestCandidate := reduceBest scoredHead scoredRest
      let result := calculateConfidence bestCandidate.nameSimilarity bestCandidate.dateScore
        (c :: rest).length
      let confidenceScore := result.1
      let breakdown := result.2
      let status := determineStatus confidenceScore
      if status = .UNMATCHED then
        { matchedInvoiceId := none
          matchedInvoiceNumber := none
          confidenceScore := confidenceScore
          status := status
          matchDetails :=
            { breakdown := breakdown
              normalizedDescription := normalizedDescription
              normalizedCustomerName := some bestCandidate.normalizedName
              candidateCount := (c :: rest).length } }
      else
        { matchedInvoiceId := some bestCandidate.invoice.id
          matchedInvoiceNumber := some bestCandidate.invoice.invoiceNumber
          confidenceScore := confidenceScore
          status := status
          matchDetails :=
            { breakdown := breakdown
              normalizedDescription := normalizedDescription
              normalizedCustomerName := some bestCandidate.normalizedName
              candidateCount := (c :: rest).length } }

/-! ### Intermediate values of `matchTransaction` (abbreviations for the
candidate scoring, best-candidate selection and final confidence of a
non-empty candidate list, used to state properties of the matcher) -/

/-- The scored candidate of one invoice, as computed by the matcher. -/
def scoredOf (jw : String → String → ℚ) (t : BankTransactionInput)
    (inv : InvoiceInput) : CandidateScore :=
  scoreCandidate jw (normalizeName t.description) t.transactionDate inv

/-- The matcher's selected best candidate on `c :: rest`. -/
def bestOf (jw : String → String → ℚ) (t : BankTransactionInput)
    (c : InvoiceInput) (rest : List InvoiceInput) : CandidateScore :=
  reduceBest (scoredOf jw t c) (rest.map (scoredOf jw t))

/-- The matcher's final confidence score on `c :: rest`. -/
def scoreOf (jw : String → String → ℚ) (t : BankTransactionInput)
    (c : InvoiceInput) (rest : List InvoiceInput) : ℚ :=
  (calculateConfidence (bestOf jw t c rest).nameSimilarity
    (bestOf jw t c rest).dateScore (c :: rest).length).1

/-! ## `AppError` (`src/utils/AppError.ts`) -/

/-- Operational error: `message` and HTTP `statusCode`. -/
structure AppError where
  message : String
  statusCode : ℕ
  deriving Repr, DecidableEq

/-- `AppError.badRequest` (status 400). -/
def AppError.badRequest (message : String) : AppError :=
  { message := message, statusCode := 400 }

/-- `AppError.notFound` (status 404). -/
def AppError.notFound (message : String) : AppError :=
  { message := message, statusCode := 404 }

/-! ## §4.L Transaction state machine (`src/services/transaction.service.ts`)

The authoritative store is modelled by an explicit `DbState`.  Each admin
action is a function `DbState → DbState × Except AppError _`; a thrown
`AppError` corresponds to an `.error` result, and — since the source throws
before issuing any write, and wraps all writes of one action in
`prisma.$transaction` — the returned state on `.error` is the unchanged
input state. -/

inductive BankTransactionStatus where
  | pending
  | auto_matched
  | needs_review
  | unmatched
  | confirmed
  | external
  deriving Repr, DecidableEq

/-- The database string of a status (Prisma enum value). -/
def BankTransactionStatus.dbName : BankTransactionStatus → String
  | .pending => "pending"
  | .auto_matched => "auto_matched"
  | .needs_review => "needs_review"
  | .unmatched => "unmatched"
  | .confirmed => "confirmed"
  | .external => "external"

/-- A `bank_transactions` row (interface `BankTransaction`).
`matchDetails` is an opaque JSON payload. -/
structure BankTransaction where
  id : String
  uploadBatchId : String
  transactionDate : ℤ
  description : String
  amount : ℚ
  referenceNumber : Option String
  status : BankTransactionStatus
  matchedInvoiceId : Option String
  confidenceScore : Option ℚ
  matchDetails : String
  createdAt : ℤ
  deriving Repr, DecidableEq

/-- Audit actions (`AuditActionType` in `src/services/audit.service.ts`). -/
inductive AuditActionType where
  | auto_matched
  | confirmed
  | rejected
  | manual_matched
  | marked_external
  deriving Repr, DecidableEq

/-- A `match_audit_logs` row, as created by `createAuditLog`
(the DB-generated `id` is modelled by the row's position in the log). -/
structure MatchAuditLog where
  transactionId : String
  action : AuditActionType
  previousInvoiceId : Option String
  newInvoiceId : Option String
  performedBy : String
  reason : Option String
  deriving Repr, DecidableEq

/-- `reason: params.reason || null` — an absent or empty reason is stored
as SQL `NULL`. -/
def storedReason (reason : Option String) : Option String :=
  match reason with
  | none => none
  | some s => if s = "" then none else some s

/-- The slice of the authoritative store the state machine touches:
the transaction rows, the set of existing invoice ids, and the
append-only audit table. -/
structure DbState where
  transactions : List BankTransaction
  invoiceIds : List String
  audit : List MatchAuditLog
  deriving Repr, DecidableEq

/-- `getTransaction`: `findUnique({ where: { id } })`. -/
def getTransaction (st : DbState) (transactionId : String) :
    Option BankTransaction :=
  st.transactions.find? (fun t => t.id = transactionId)

/-- `update({ where: { id }, data })`, modelled as an in-place row update. -/
def updateTransactionRow (l : List BankTransaction) (transactionId : String)
    (t' : BankTransaction) : List BankTransaction :=
  l.map (fun t => if t.id = transactionId then t' else t)

/-- `CONFIRMABLE_STATUSES`. -/
def CONFIRMABLE_STATUSES : List BankTransactionStatus := [.auto_matched, .needs_review]

/-- `REJECTABLE_STATUSES`. -/
def REJECTABLE_STATUSES : List BankTransactionStatus := [.auto_matched, .needs_review]

/-- `MANUAL_MATCHABLE_STATUSES`. -/
def MANUAL_MATCHABLE_STATUSES : List BankTransactionStatus := [.needs_review, .unmatched]

/-- `EXTERNAL_MARKABLE_STATUSES`. -/
def EXTERNAL_MARKABLE_STATUSES : List BankTransactionStatus := [.unmatched]

/-- The message thrown by `validateStatusTransition`. -/
def invalidTransitionMessage (actionName : String)
    (currentStatus : BankTransactionStatus)
    (allowedStatuses : List BankTransactionStatus) : String :=
  "Cannot " ++ actionName ++ " transaction with status \"" ++
    currentStatus.dbName ++ "\". Allowed statuses: " ++
    String.intercalate ", " (allowedStatuses.map BankTransactionStatus.dbName)

/-- `validateStatusTransition`: throws `AppError.badRequest` (the
`invalid_state` error of the specification) when the current status is not
in the allowed set. -/
def validateStatusTransition (currentStatus : BankTransactionStatus)
    (allowedStatuses : List BankTransactionStatus) (actionName : String) :
    Except AppError Unit :=
  if currentStatus ∈ allowedStatuses then .ok ()
  else .error (AppError.badRequest
    (invalidTransitionMessage actionName currentStatus allowedStatuses))

/-- Result of a single admin action (`AdminActionResult`); `auditLogId` is
the appended audit row's position. -/
structure AdminActionResult where
  transaction : BankTransaction
  auditLogId : ℕ
  deriving Repr, DecidableEq

/-- `confirmMatch`: allowed from `auto_matched`/`needs_review`; sets the
status to `confirmed`, keeps `matchedInvoiceId`, appends one `confirmed`
audit row. -/
def confirmMatch (st : DbState) (transactionId : String)
    (performedBy : String) : DbState × Except AppError AdminActionResult :=
  match getTransaction st transactionId with
  | none => (st, .error (AppError.notFound ("Transaction not found: " ++ transactionId)))
  | some transaction =>
    match validateStatusTransition transaction.status CONFIRMABLE_STATUSES "confirm" with
    | .error e => (st, .error e)
    | .ok _ =>
      let updatedTransaction := { transaction with status := .confirmed }
      let entry : MatchAuditLog :=
        { transactionId := transactionId
          action := .confirmed
          previousInvoiceId := transaction.matchedInvoiceId
          newInvoiceId := transaction.matchedInvoiceId
          performedBy := performedBy
          reason := storedReason none }
      ({ st with
          transactions := updateTransactionRow st.transactions transactionId updatedTransaction
          audit := st.audit ++ [entry] },
       .ok { transaction := updatedTransaction, auditLogId := st.audit.length })

/-- `rejectMatch`: allowed from `auto_matched`/`needs_review`; sets the
status to `unmatched`, clears `matchedInvoiceId`, appends one `rejected`
audit row. -/
def rejectMatch (st : DbState) (transactionId : String)
    (performedBy : String) (reason : Option String) :
    DbState × Except AppError AdminActionResult :=
  match getTransaction st transactionId with
  | none => (st, .error (AppError.notFound ("Transaction not found: " ++ transactionId)))
  | some transaction =>
    match validateStatusTransition transaction.status REJECTABLE_STATUSES "reject" with
    | .error e => (st, .error e)
    | .ok _ =>
      let updatedTransaction :=
        { transaction with status := .unmatched, matchedInvoiceId := none }
      let entry : MatchAuditLog :=
        { transactionId := transactionId
          action := .rejected
          previousInvoiceId := transaction.matchedInvoiceId
          newInvoiceId := none
          performedBy := performedBy
          reason := storedReason reason }
      ({ st with
          transactions := updateTransactionRow st.transactions transactionId updatedTransaction
          audit := st.audit ++ [entry] },
       .ok { transaction := updatedTransaction, auditLogId := st.audit.length })

/-- `manualMatch`: allowed from `needs_review`/`unmatched`; requires the
invoice to exist (checked after the status validation, as in the source);
sets the status to `confirmed` and `matchedInvoiceId` to the supplied
invoice; appends one `manual_matched` audit row. -/
def manualMatch (st : DbState) (transactionId invoiceId : String)
    (performedBy : String) (reason : Option String) :
    DbState × Except AppError AdminActionResult :=
  match getTransaction st transactionId with
  | none => (st, .error (AppError.notFound ("Transaction not found: " ++ transactionId)))
  | some transaction =>
    match validateStatusTransition transaction.status MANUAL_MATCHABLE_STATUSES "manually match" with
    | .error e => (st, .error e)
    | .ok _ =>
      if invoiceId ∈ st.invoiceIds then
        let updatedTransaction :=
          { transaction with status := .confirmed, matchedInvoiceId := some invoiceId }
        let entry : MatchAuditLog :=
          { transactionId := transactionId
            action := .manual_matched
            previousInvoiceId := transaction.matchedInvoiceId
            newInvoiceId := some invoiceId
            performedBy := performedBy
            reason := storedReason reason }
        ({ st with
            transactions := updateTransactionRow st.transactions transactionId updatedTransaction
            audit := st.audit ++ [entry] },
         .ok { transaction := updatedTransaction, auditLogId := st.audit.length })
      else
        (st, .error (AppError.badRequest ("Invoice not found: " ++ invoiceId)))

/-- `markExternal`: allowed from `unmatched`; sets the status to
`external`, clears `matchedInvoiceId`, appends one `marked_external`
audit row. -/
def markExternal (st : DbState) (transactionId : String)
    (performedBy : String) (reason : Option String) :
    DbState × Except AppError AdminActionResult :=
  match getTransaction st transactionId with
  | none => (st, .error (AppError.notFound ("Transaction not found: " ++ transactionId)))
  | some transaction =>
    match validateStatusTransition transaction.status EXTERNAL_MARKABLE_STATUSES "mark as external" with
    | .error e => (st, .error e)
    | .ok _ =>
      let updatedTransaction :=
        { transaction with status := .external, matchedInvoiceId := none }
      let entry : MatchAuditLog :=
        { transactionId := transactionId
          action := .marked_external
          previousInvoiceId := transaction.matchedInvoiceId
          newInvoiceId := none
          performedBy := performedBy
          reason := storedReason reason }
      ({ st with
          transactions := updateTransactionRow st.transactions transactionId updatedTransaction
          audit := st.audit ++ [entry] },
       .ok { transaction := updatedTransaction, auditLogId := st.audit.length })

/-- The four single-row admin actions, as one dispatchable type. -/
inductive AdminAction where
  | confirm
  | reject (reason : Option String)
  | manual_match (invoiceId : String) (reason : Option String)
  | mark_external (reason : Option String)
  deriving Repr, DecidableEq

/-- The action name used in the `invalid_state` message. -/
def AdminAction.actionName : AdminAction → String
  | .confirm => "confirm"
  | .reject _ => "reject"
  | .manual_match _ _ => "manually match"
  | .mark_external _ => "mark as external"

/-- The allowed-from set of each action. -/
def AdminAction.allowedFrom : AdminAction → List BankTransactionStatus
  | .confirm => CONFIRMABLE_STATUSES
  | .reject _ => REJECTABLE_STATUSES
  | .manual_match _ _ => MANUAL_MATCHABLE_STATUSES
  | .mark_external _ => EXTERNAL_MARKABLE_STATUSES

/-- Dispatch of an admin action to its service function. -/
def applyAdminAction (a : AdminAction) (st : DbState)
    (transactionId performedBy : String) :
    DbState × Except AppError AdminActionResult :=
  match a with
  | .confirm => confirmMatch st transactionId performedBy
  | .reject reason => rejectMatch st transactionId performedBy reason
  | .manual_match invoiceId reason => manualMatch st transactionId invoiceId performedBy reason
  | .mark_external reason => markExternal st transactionId performedBy reason

/-! ## JavaScript numeric parsing primitives

`parseInt` / `parseFloat` are ECMAScript platform primitives (not repository
code); they are modelled here over `ℚ`: both parse a maximal numeric prefix
after leading whitespace and return `none` for NaN.  Infinite values
(`parseFloat("Infinity")`) are outside the rational model and do not arise
on the inputs considered by the claims. -/

/-- Numeric value of a decimal digit character. -/
def digitVal (c : Char) : ℕ := c.toNat - 48

/-- Digit test by code point (extensionally `Char.isDigit`). -/
def isDigitChar (c : Char) : Bool := 48 ≤ c.toNat ∧ c.toNat ≤ 57

/-- The natural number denoted by a digit string. -/
def natOfDigits (ds : List Char) : ℕ :=
  ds.foldl (fun n c => n * 10 + digitVal c) 0

/-- `parseInt(s, 10)`: skip leading whitespace, optional sign, maximal run
of decimal digits; no digits ⇒ NaN (`none`). -/
def jsParseInt (s : String) : Option ℤ :=
  let cs := s.toList.dropWhile Char.isWhitespace
  let signAndRest : ℤ × List Char :=
    match cs with
    | '+' :: r => (1, r)
    | '-' :: r => (-1, r)
    | r => (1, r)
  let ds := signAndRest.2.takeWhile isDigitChar
  if ds = [] then none else some (signAndRest.1 * (natOfDigits ds : ℤ))

/-- The rational denoted by a sign, integer digits value, fraction digits
value and length, and a decimal exponent. -/
def decimalValue (sign : ℤ) (ip fp fplen : ℕ) (ex : ℤ) : ℚ :=
  (sign : ℚ) * ((ip : ℚ) + (fp : ℚ) / (10 : ℚ) ^ fplen) * (10 : ℚ) ^ ex

/-- A well-formed exponent suffix value (`e`/`E`, optional sign, digits);
an absent or malformed exponent contributes `0` (parseFloat stops before
it). -/
def expSuffixVal (l : List Char) : ℤ :=
  match l with
  | 'e' :: '+' :: r => if r.takeWhile isDigitChar = [] then 0 else (natOfDigits (r.takeWhile isDigitChar) : ℤ)
  | 'e' :: '-' :: r => if r.takeWhile isDigitChar = [] then 0 else -(natOfDigits (r.takeWhile isDigitChar) : ℤ)
  | 'e' :: r => if r.takeWhile isDigitChar = [] then 0 else (natOfDigits (r.takeWhile isDigitChar) : ℤ)
  | 'E' :: '+' :: r => if r.takeWhile isDigitChar = [] then 0 else (natOfDigits (r.takeWhile isDigitChar) : ℤ)
  | 'E' :: '-' :: r => if r.takeWhile isDigitChar = [] then 0 else -(natOfDigits (r.takeWhile isDigitChar) : ℤ)
  | 'E' :: r => if r.takeWhile isDigitChar = [] then 0 else (natOfDigits (r.takeWhile isDigitChar) : ℤ)
  | _ => 0

/-- `parseFloat(s)`: skip leading whitespace, optional sign, decimal
mantissa (`digits`, `digits.digits`, or `.digits`), optional well-formed
exponent; trailing garbage is ignored; no mantissa digit ⇒ NaN (`none`). -/
def jsParseFloat (s : String) : Option ℚ :=
  let cs := s.toList.dropWhile Char.isWhitespace
  let signAndRest : ℤ × List Char :=
    match cs with
    | '+' :: r => (1, r)
    | '-' :: r => (-1, r)
    | r => (1, r)
  let intDigits := signAndRest.2.takeWhile isDigitChar
  let afterInt := signAndRest.2.dropWhile isDigitChar
  let fracAndRest : List Char × List Char :=
    match afterInt with
    | '.' :: r => (r.takeWhile isDigitChar, r.dropWhile isDigitChar)
    | r => ([], r)
  if intDigits = [] ∧ fracAndRest.1 = [] then none
  else
    some (decimalValue signAndRest.1 (natOfDigits intDigits)
      (natOfDigits fracAndRest.1) fracAndRest.1.length (expSuffixVal fracAndRest.2))

/-! ## JavaScript date parsing

`new Date(string)` is a platform primitive.  Modelled from the spec:
§4.J / §6 state the accepted input formats — ISO-8601 (`YYYY-MM-DD`, with an
optional time part) and US `M/D/YYYY`.  The model returns the UTC day index
of the calendar day (see the module comment), `none` for an invalid date. -/

/-- Leap-year test (proleptic Gregorian). -/
def isLeapYear (y : ℤ) : Bool := (y % 4 = 0 ∧ y % 100 ≠ 0) ∨ y % 400 = 0

/-- Days in a month. -/
def daysInMonth (y : ℤ) (m : ℕ) : ℕ :=
  if m = 2 then (if isLeapYear y then 29 else 28)
  else if m = 4 ∨ m = 6 ∨ m = 9 ∨ m = 11 then 30
  else 31

/-- Day index of a civil date, with day 0 = 1970-01-01 (the standard
`days_from_civil` computation, using floor division). -/
def daysFromCivil (y : ℤ) (m d : ℕ) : ℤ :=
  let yAdj : ℤ := if m ≤ 2 then y - 1 else y
  let era : ℤ := Int.fdiv yAdj 400
  let yoe : ℤ := yAdj - era * 400
  let mp : ℕ := (m + 9) % 12
  let doy : ℤ := Int.fdiv (153 * (mp : ℤ) + 2) 5 + (d : ℤ) - 1
  let doe : ℤ := yoe * 365 + Int.fdiv yoe 4 - Int.fdiv yoe 100 + doy
  era * 146097 + doe - 719468

/-- Two-digit value. -/
def digit2 (a b : Char) : ℕ := digitVal a * 10 + digitVal b

/-- Millisecond / zone tail of an ISO time part: empty, `Z`, or
`.` with three digits followed by an optional `Z`. -/
def isoMsPartOk : List Char → Bool
  | [] => true
  | ['Z'] => true
  | '.' :: a :: b :: c :: rest =>
      isDigitChar a ∧ isDigitChar b ∧ isDigitChar c ∧ (rest = [] ∨ rest = ['Z'])
  | _ => false

/-- Seconds tail of an ISO time part. -/
def isoSecondsPartOk : List Char → Bool
  | [] => true
  | ['Z'] => true
  | ':' :: s1 :: s2 :: rest =>
      isDigitChar s1 ∧ isDigitChar s2 ∧ digit2 s1 s2 < 60 ∧ isoMsPartOk rest
  | _ => false

/-- Optional time part of an ISO date-time: empty, or
`T HH:MM` followed by an optional seconds part. -/
def isoTimePartOk : List Char → Bool
  | [] => true
  | 'T' :: h1 :: h2 :: ':' :: m1 :: m2 :: rest =>
      isDigitChar h1 ∧ isDigitChar h2 ∧ isDigitChar m1 ∧ isDigitChar m2 ∧
        digit2 h1 h2 < 24 ∧ digit2 m1 m2 < 60 ∧ isoSecondsPartOk rest
  | _ => false

/-- ISO-8601 date(-time) parsing: `YYYY-MM-DD` with component range checks,
followed by an optional valid time part; returns the day index. -/
def parseIsoDate (s : String) : Option ℤ :=
  match s.toList with
  | y1 :: y2 :: y3 :: y4 :: '-' :: m1 :: m2 :: '-' :: d1 :: d2 :: rest =>
      if isDigitChar y1 ∧ isDigitChar y2 ∧ isDigitChar y3 ∧ isDigitChar y4 ∧
          isDigitChar m1 ∧ isDigitChar m2 ∧ isDigitChar d1 ∧ isDigitChar d2 then
        let y : ℤ := (digitVal y1 * 1000 + digitVal y2 * 100 + digitVal y3 * 10 + digitVal y4 : ℕ)
        let m := digit2 m1 m2
        let d := digit2 d1 d2
        if 1 ≤ m ∧ m ≤ 12 ∧ 1 ≤ d ∧ d ≤ daysInMonth y m ∧ isoTimePartOk rest then
          some (daysFromCivil y m d)
        else none
      else none
  | _ => none

/-- US `M/D/YYYY` date parsing, with component range checks. -/
def parseUsDate (s : String) : Option ℤ :=
  match splitChars (· = '/') s.toList with
  | [ms, ds, ys] =>
      if ms ≠ [] ∧ ms.length ≤ 2 ∧ ms.all isDigitChar ∧
          ds ≠ [] ∧ ds.length ≤ 2 ∧ ds.all isDigitChar ∧
          ys.length = 4 ∧ ys.all isDigitChar then
        let m := natOfDigits ms
        let d := natOfDigits ds
        let y : ℤ := (natOfDigits ys : ℕ)
        if 1 ≤ m ∧ m ≤ 12 ∧ 1 ≤ d ∧ d ≤ daysInMonth y m then
          some (daysFromCivil y m d)
        else none
      else none
  | _ => none

/-- `new Date(string)` validity/value, over the formats the specification
admits (ISO-8601 first, then US `M/D/YYYY`). -/
def parseJsDate (s : String) : Option ℤ :=
  (parseIsoDate s).orElse (fun _ => parseUsDate s)

/-! ## §4.J / §4.K Batch-worker CSV row parsing
(`src/workers/reconciliationWorker.ts`, `parseAllRows`)

The worker parses each `csv-parse` record (`columns: true, trim: true`)
with inline logic: strip `$`/`,` from `amount` and `parseFloat` it, skip
when NaN or `≤ 0`; `new Date(transaction_date || date)`, skip when invalid;
keep `description || ''` and `reference_number || reference || null`
verbatim. -/

/-- One CSV record as delivered by `csv-parse` with `columns: true` and
`trim: true` (absent columns are `none`; present values are pre-trimmed). -/
structure CsvRow where
  transaction_date : Option String
  date : Option String
  description : Option String
  amount : Option String
  reference_number : Option String
  reference : Option String
  deriving Repr, DecidableEq

/-- JavaScript `a || b` on optional strings (`""` is falsy). -/
def jsOr (a b : Option String) : Option String :=
  match a with
  | some s => if s = "" then b else some s
  | none => b

/-- `row.amount?.replace(/[$,]/g, '')`. -/
def stripDollarComma (s : String) : String :=
  String.mk (s.toList.filter (fun c => c ≠ '$' ∧ c ≠ ','))

/-- A parsed worker row (`ParsedRow`). -/
structure ParsedRow where
  transactionDate : ℤ
  description : String
  amount : ℚ
  referenceNumber : Option String
  deriving Repr, DecidableEq

/-- `row.amount?.replace(/[$,]/g, '') || '0'`. -/
def workerAmountStr (row : CsvRow) : String :=
  match row.amount with
  | none => "0"
  | some a => let stripped := stripDollarComma a
              if stripped = "" then "0" else stripped

/-- `new Date(row.transaction_date || row.date)`, as a day index
(`none` = invalid date). -/
def workerDate (row : CsvRow) : Option ℤ :=
  match jsOr row.transaction_date row.date with
  | none => none
  | some dateValue => parseJsDate dateValue

/-- The per-row logic of `parseAllRows`: `none` means the row is skipped
silently. -/
def parseWorkerRow (row : CsvRow) : Option ParsedRow :=
  match jsParseFloat (workerAmountStr row) with
  | none => none
  | some amount =>
    if amount ≤ 0 then none
    else
      match workerDate row with
      | none => none
      | some transactionDate =>
        some { transactionDate := transactionDate
               description := row.description.getD ""
               amount := amount
               referenceNumber := jsOr row.reference_number row.reference }

/-- `parseAllRows` (row-level part): the parsed rows, in order, with
skipped rows removed. -/
def parseAllRows (rows : List CsvRow) : List ParsedRow :=
  rows.filterMap parseWorkerRow

/-- The worker's `rows.length`, used by `updateBatchFinalCounts` as both
`totalTransactions` and `processedCount`. -/
def batchTotal (rows : List CsvRow) : ℕ := (parseAllRows rows).length

/-! ## §4.M Pagination limit (`src/services/pagination.service.ts`) -/

/-- `DEFAULT_LIMIT`. -/
def DEFAULT_LIMIT : ℚ := 50

/-- `MAX_LIMIT`. -/
def MAX_LIMIT : ℚ := 100

/-- The JavaScript value space of `validateLimit`'s first parameter
(`number | string | undefined`, plus `null` and `NaN` which the code
checks for). -/
inductive JsLimitInput where
  | undef
  | null
  | str (s : String)
  | num (q : ℚ)
  | nan
  deriving Repr, DecidableEq

/-- `validateLimit`: missing/empty ⇒ default; strings via `parseInt`;
NaN or `< 1` ⇒ default; otherwise clamped to `max`. -/
def validateLimit (limit : JsLimitInput) (mx : ℚ) : ℚ :=
  match limit with
  | .undef => DEFAULT_LIMIT
  | .null => DEFAULT_LIMIT
  | .str s =>
      if s = "" then DEFAULT_LIMIT
      else
        match jsParseInt s with
        | none => DEFAULT_LIMIT
        | some n => if (n : ℚ) < 1 then DEFAULT_LIMIT else min (n : ℚ) mx
  | .num q => if q < 1 then DEFAULT_LIMIT else min q mx
  | .nan => DEFAULT_LIMIT

/-! ## §4.M Cursor encoding (`src/services/pagination.service.ts`)

`encodeCursor` is `base64url(JSON.stringify({createdAt, id}))`;
`decodeCursor` is the inverse with validation, rejecting with
`AppError.badRequest('Invalid pagination cursor')`.

`Buffer`/`JSON` are platform primitives.  The byte level is modelled on
`List ℕ` (bytes); strings are converted byte-wise, which agrees with UTF-8
on the ASCII payloads produced by the encoder.  `JSON.parse` is modelled by
a parser for exactly the two-field object layout `JSON.stringify` emits for
a cursor; JSON documents of any other shape are outside the model (the
claims only exercise cursors in the image of the encoder). -/

/-- The base64url alphabet character of a 6-bit value. -/
def base64Char (n : ℕ) : Char :=
  if n < 26 then Char.ofNat (65 + n)
  else if n < 52 then Char.ofNat (97 + (n - 26))
  else if n < 62 then Char.ofNat (48 + (n - 52))
  else if n = 62 then '-'
  else '_'

/-- The 6-bit value of a base64url alphabet character. -/
def base64Val (c : Char) : Option ℕ :=
  if 65 ≤ c.toNat ∧ c.toNat ≤ 90 then some (c.toNat - 65)
  else if 97 ≤ c.toNat ∧ c.toNat ≤ 122 then some (c.toNat - 97 + 26)
  else if 48 ≤ c.toNat ∧ c.toNat ≤ 57 then some (c.toNat - 48 + 52)
  else if c = '-' then some 62
  else if c = '_' then some 63
  else none

/-- base64url encoding of a byte list (unpadded, as Node's `base64url`). -/
def base64urlEncodeBytes : List ℕ → List Char
  | [] => []
  | [b1] => [base64Char (b1 / 4), base64Char (b1 % 4 * 16)]
  | [b1, b2] =>
      [base64Char (b1 / 4), base64Char (b1 % 4 * 16 + b2 / 16), base64Char (b2 % 16 * 4)]
  | b1 :: b2 :: b3 :: rest =>
      base64Char (b1 / 4) :: base64Char (b1 % 4 * 16 + b2 / 16) ::
        base64Char (b2 % 16 * 4 + b3 / 64) :: base64Char (b3 % 64) ::
          base64urlEncodeBytes rest

/-- base64url decoding of a character list to bytes (one leftover
character is invalid; trailing bits are discarded, as in Node). -/
def base64urlDecodeChars : List Char → Option (List ℕ)
  | [] => some []
  | [_] => none
  | [c1, c2] => do
      let v1 ← base64Val c1
      let v2 ← base64Val c2
      some [v1 * 4 + v2 / 16]
  | [c1, c2, c3] => do
      let v1 ← base64Val c1
      let v2 ← base64Val c2
      let v3 ← base64Val c3
      some [v1 * 4 + v2 / 16, v2 % 16 * 16 + v3 / 4]
  | c1 :: c2 :: c3 :: c4 :: rest => do
      let v1 ← base64Val c1
      let v2 ← base64Val c2
      let v3 ← base64Val c3
      let v4 ← base64Val c4
      let tl ← base64urlDecodeChars rest
      some ((v1 * 4 + v2 / 16) :: (v2 % 16 * 16 + v3 / 4) :: (v3 % 4 * 64 + v4) :: tl)

/-- Byte-wise string-to-bytes conversion (UTF-8 on ASCII payloads). -/
def strToBytes (s : String) : List ℕ := s.toList.map Char.toNat

/-- Byte-wise bytes-to-string conversion. -/
def bytesToStr (bs : List ℕ) : String := String.mk (bs.map Char.ofNat)

/-- `JSON.stringify` escaping of one string character (`\uXXXX` escapes of
control characters are collapsed to the common short forms; no claim input
contains control characters). -/
def jsonEscapeChar (c : Char) : List Char :=
  if c.toNat = 34 then ['\\', '"']
  else if c.toNat = 92 then ['\\', '\\']
  else if c.toNat = 8 then ['\\', 'b']
  else if c.toNat = 9 then ['\\', 't']
  else if c.toNat = 10 then ['\\', 'n']
  else if c.toNat = 12 then ['\\', 'f']
  else if c.toNat = 13 then ['\\', 'r']
  else if c.toNat < 32 then ['\\', 'u', '0', '0',
    base64Char 52, base64Char 52]   -- placeholder hex digits; unreachable on claim inputs
  else [c]

/-- `JSON.stringify` of a string value. -/
def jsonQuote (s : String) : String :=
  "\"" ++ String.mk (s.toList.map jsonEscapeChar).flatten ++ "\""

/-- `JSON.stringify({createdAt, id})` — exactly
`\x7b"createdAt":"…","id":"…"\x7d` with no whitespace. -/
def cursorJson (createdAt id : String) : String :=
  "\x7b\"createdAt\":" ++ jsonQuote createdAt ++ ",\"id\":" ++ jsonQuote id ++ "\x7d"

/-- `encodeCursor(createdAt, id)` for a string `createdAt` (the `Date`
overload stringifies with `toISOString` first and is not needed by the
claims). -/
def encodeCursor (createdAt id : String) : String :=
  String.mk (base64urlEncodeBytes (strToBytes (cursorJson createdAt id)))

/-- The character denoted by a JSON escape sequence `\c`. -/
def jsonUnescape (c : Char) : Option Char :=
  if c = '"' then some '"'
  else if c = '\\' then some '\\'
  else if c = '/' then some '/'
  else if c = 'b' then some (Char.ofNat 8)
  else if c = 't' then some '\t'
  else if c = 'n' then some '\n'
  else if c = 'f' then some (Char.ofNat 12)
  else if c = 'r' then some (Char.ofNat 13)
  else none

/-- Reads a JSON string literal body up to the closing quote, unescaping;
returns the content and the remainder. -/
def readJsonStringLit : List Char → Option (List Char × List Char)
  | [] => none
  | c :: rest =>
      if c = '"' then some ([], rest)
      else if c = '\\' then
        match rest with
        | [] => none
        | e :: rest2 =>
          match jsonUnescape e with
          | none => none
          | some esc =>
            match readJsonStringLit rest2 with
            | none => none
            | some (content, remainder) => some (esc :: content, remainder)
      else
        match readJsonStringLit rest with
        | none => none
        | some (content, remainder) => some (c :: content, remainder)

/-- Strips an exact expected prefix. -/
def dropExact : List Char → List Char → Option (List Char)
  | [], l => some l
  | _ :: _, [] => none
  | p :: ps, c :: cs => if c = p then dropExact ps cs else none

/-- `JSON.parse`, restricted to the exact cursor-object layout produced by
`cursorJson` (see the section comment for the modelling scope). -/
def parseCursorJson (s : String) : Option (String × String) :=
  match dropExact "\x7b\"createdAt\":\"".toList s.toList with
  | none => none
  | some l1 =>
    match readJsonStringLit l1 with
    | none => none
    | some (createdAt, l2) =>
      match dropExact ",\"id\":\"".toList l2 with
      | none => none
      | some l3 =>
        match readJsonStringLit l3 with
        | none => none
        | some (id, l4) =>
          match dropExact "\x7d".toList l4 with
          | none => none
          | some l5 =>
            if l5 = [] then some (String.mk createdAt, String.mk id) else none

/-- A decoded cursor (`DecodedCursor`). -/
structure DecodedCursor where
  createdAt : String
  id : String
  deriving Repr, DecidableEq

/-- The regex `/^[0-9a-f-]{36}$/i` of `decodeCursor`: exactly 36
characters, each a hex digit (either case) or a hyphen. -/
def idShapeOk (i : String) : Bool :=
  i.length = 36 ∧ i.toList.all (fun c =>
    (48 ≤ c.toNat ∧ c.toNat ≤ 57) ∨ (97 ≤ c.toNat ∧ c.toNat ≤ 102) ∨
    (65 ≤ c.toNat ∧ c.toNat ≤ 70) ∨ c = '-')

/-- The `try`-block body of `decodeCursor`: base64url-decode, JSON-parse,
require truthy `createdAt` and `id`, a parseable date, and the
36-character hex/hyphen id shape. -/
def decodeCursorInner (cursor : String) : Option DecodedCursor :=
  match base64urlDecodeChars cursor.toList with
  | none => none
  | some bytes =>
    match parseCursorJson (bytesToStr bytes) with
    | none => none
    | some (createdAt, id) =>
      if createdAt = "" then none
      else if id = "" then none
      else if (parseJsDate createdAt).isNone then none
      else if ¬ idShapeOk id then none
      else some { createdAt := createdAt, id := id }

/-- `decodeCursor`: any failure inside the `try` block is caught and
rethrown as `AppError.badRequest('Invalid pagination cursor')`. -/
def decodeCursor (cursor : String) : Except AppError DecodedCursor :=
  match decodeCursorInner cursor with
  | some dc => .ok dc
  | none => .error (AppError.badRequest "Invalid pagination cursor")

/-- Validity of an ISO-8601 date(-time) string, as the specification's
"valid ISO-8601 `d`": structurally valid per `parseIsoDate`, over the
ISO character set. -/
def isValidIsoDateString (s : String) : Bool :=
  (parseIsoDate s).isSome ∧ s.toList.all (fun c =>
    isDigitChar c ∨ c.toNat = 45 ∨ c.toNat = 58 ∨ c.toNat = 84 ∨
    c.toNat = 90 ∨ c.toNat = 46)

/-- A printable ASCII character that JSON stringifies verbatim
(no quote, no backslash, no control character). -/
def asciiPlainChar (c : Char) : Bool :=
  32 ≤ c.toNat ∧ c.toNat < 128 ∧ c.toNat ≠ 34 ∧ c.toNat ≠ 92

/-- A string of plain ASCII characters. -/
def asciiPlainStr (s : String) : Bool := s.toList.all asciiPlainChar

/-- UUID shape of the specification: 36 characters, hyphens at positions
8, 13, 18 and 23, lowercase hex digits elsewhere. -/
def isUuid (i : String) : Bool :=
  i.length = 36 ∧ i.toList.enum.all (fun p =>
    if p.1 = 8 ∨ p.1 = 13 ∨ p.1 = 18 ∨ p.1 = 23 then p.2 = '-'
    else (48 ≤ p.2.toNat ∧ p.2.toNat ≤ 57) ∨ (97 ≤ p.2.toNat ∧ p.2.toNat ≤ 102))

/-! ## Concrete fixtures used by witnesses and counterexamples -/

/-- A similarity kernel that is never consulted on the concrete inputs
below (they always hit the `empty` or `identical` early returns). -/
def jwZero : String → String → ℚ := fun _ _ => 0

/-- A transaction whose description is entirely noise words. -/
def txNoise : BankTransactionInput :=
  { transactionDate := 0, description := "PAYMENT FROM THE", amount := 100 }

/-- A sample candidate invoice. -/
def invAcme : InvoiceInput :=
  { id := "inv1", invoiceNumber := "INV-1", customerName := "Acme", dueDate := 0 }

/-- A transaction description that normalizes to `"ACME"`. -/
def txAcme : BankTransactionInput :=
  { transactionDate := 0, description := "ACME", amount := 100 }

/-- Tie candidate with the larger id, listed first. -/
def invTieB : InvoiceInput :=
  { id := "b", invoiceNumber := "B", customerName := "ACME", dueDate := 0 }

/-- Tie candidate with the smaller id. -/
def invTieA : InvoiceInput :=
  { id := "a", invoiceNumber := "A", customerName := "ACME", dueDate := 0 }

/-- A candidate dissimilar to `"ACME"`. -/
def invZed : InvoiceInput :=
  { id := "z", invoiceNumber := "Z", customerName := "ZZZZ", dueDate := 0 }

/-- A CSV row with a valid date, a 3-decimal amount and an empty
description. -/
def rowEmptyDesc : CsvRow :=
  { transaction_date := some "2024-01-15"
    date := none
    description := some ""
    amount := some "10.005"
    reference_number := none
    reference := none }

/-- The parsed row the worker produces for `rowEmptyDesc`
(day 19737 = 2024-01-15). -/
def prEmptyDesc : ParsedRow :=
  { transactionDate := 19737
    description := ""
    amount := decimalValue 1 10 5 3 0
    referenceNumber := none }

/-- A sample transaction row. -/
def txSample (status : BankTransactionStatus)
    (matchedInvoiceId : Option String) : BankTransaction :=
  { id := "t1"
    uploadBatchId := "b1"
    transactionDate := 0
    description := "D"
    amount := 0
    referenceNumber := none
    status := status
    matchedInvoiceId := matchedInvoiceId
    confidenceScore := none
    matchDetails := ""
    createdAt := 0 }

/-- A one-transaction store. -/
def dbSample (status : BankTransactionStatus)
    (matchedInvoiceId : Option String) : DbState :=
  { transactions := [txSample status matchedInvoiceId]
    invoiceIds := []
    audit := [] }

/-! ## Helper lemmas -/

theorem round2_mono {a b : ℚ} (h : a ≤ b) : round2 a ≤ round2 b := by
  unfold round2
  have hf : ((⌊a * 100 + 1/2⌋ : ℤ) : ℚ) ≤ ((⌊b * 100 + 1/2⌋ : ℤ) : ℚ) := by
    exact_mod_cast Int.floor_le_floor (by linarith)
  linarith

theorem round2_zero : round2 0 = 0 := by norm_num [round2]

theorem round2_fifteen : round2 15 = 15 := by norm_num [round2]

theorem round2_hundred : round2 100 = 100 := by norm_num [round2]

theorem round2_nonneg {a : ℚ} (h : 0 ≤ a) : 0 ≤ round2 a := by
  have hm := round2_mono h
  rwa [round2_zero] at hm

theorem round2_le_hundred {a : ℚ} (h : a ≤ 100) : round2 a ≤ 100 := by
  have hm := round2_mono h
  rwa [round2_hundred] at hm

theorem round2_le_fifteen {a : ℚ} (h : a ≤ 15) : round2 a ≤ 15 := by
  have hm := round2_mono h
  rwa [round2_fifteen] at hm

theorem ambiguityPenalty_nonneg (n : ℕ) : 0 ≤ calculateAmbiguityPenalty n := by
  unfold calculateAmbiguityPenalty
  split_ifs <;> norm_num

theorem dateScore_le_15 (a b : ℤ) : calculateDateScore a b ≤ 15 := by
  simp only [calculateDateScore]
  split_ifs <;> norm_num

theorem reduceBest_mem (b : CandidateScore) (l : List CandidateScore) :
    reduceBest b l ∈ b :: l := by
  induction l generalizing b with
  | nil => simp [reduceBest]
  | cons c rest ih =>
      unfold reduceBest
      rcases List.mem_cons.mp (ih (if c.preliminaryScore > b.preliminaryScore then c else b)) with h | h
      · rw [h]
        split_ifs <;> simp
      · simp [List.mem_cons, h]

theorem reduceBest_le (b : CandidateScore) (l : List CandidateScore) :
    ∀ x ∈ b :: l, x.preliminaryScore ≤ (reduceBest b l).preliminaryScore := by
  induction l generalizing b with
  | nil => intro x hx; simp [reduceBest] at hx ⊢; rw [hx]
  | cons c rest ih =>
      intro x hx
      unfold reduceBest
      rcases List.mem_cons.mp hx with h | h
      · subst h
        refine le_trans ?_ (ih _ _ (List.mem_cons_self _ _))
        split_ifs with hc
        · exact le_of_lt hc
        · exact le_refl _
      · rcases List.mem_cons.mp h with h' | h'
        · subst h'
          refine le_trans ?_ (ih _ _ (List.mem_cons_self _ _))
          split_ifs with hc
          · exact le_refl _
          · exact le_of_not_lt hc
        · exact ih _ _ (List.mem_cons_of_mem _ h')

/-! ## C4 -/

/-- **C4**: the combiner's classification boundaries: `AUTO_MATCHED` iff
`score ≥ 95`, `NEEDS_REVIEW` iff `60 ≤ score < 95`, `UNMATCHED` iff
`score < 60`. -/
theorem classification_boundaries (score : ℚ) :
    (determineStatus score = .AUTO_MATCHED ↔ 95 ≤ score) ∧
    (determineStatus score = .NEEDS_REVIEW ↔ 60 ≤ score ∧ score < 95) ∧
    (determineStatus score = .UNMATCHED ↔ score < 60) := by
  unfold determineStatus AUTO_MATCHED_THRESHOLD NEEDS_REVIEW_THRESHOLD
  split_ifs with h1 h2 <;>
    refine ⟨⟨fun ha => ?_, fun hb => ?_⟩, ⟨fun hcc => ?_, fun hdd => ?_⟩,
      ⟨fun he => ?_, fun hf => ?_⟩⟩ <;>
    simp_all <;> linarith

/-! ## C5 -/

/-- **C5**: the combiner computes
`raw = name · 1.0 + date − penalty(n)` with `penalty(n) = 0, 5, 10` for
`n ≤ 1`, `n = 2`, `n ≥ 3`, clamps `raw` to `[0, 100]` and rounds to two
decimals; the returned score lies in `[0, 100]` (stated for all inputs,
in particular for `name ∈ [0,100]`, `date ∈ {−10,0,5,10,15}`, `n ≥ 0`). -/
theorem confidence_combiner (name date : ℚ) (n : ℕ) :
    (calculateConfidence name date n).1
        = round2 (max 0 (min 100 (name * 1 + date -
            (if n ≤ 1 then 0 else if n = 2 then 5 else 10))))
    ∧ 0 ≤ (calculateConfidence name date n).1
    ∧ (calculateConfidence name date n).1 ≤ 100 := by
  have hpen : calculateAmbiguityPenalty n
      = (if n ≤ 1 then 0 else if n = 2 then 5 else 10 : ℚ) := by
    unfold calculateAmbiguityPenalty
    rcases n with _ | _ | _ | n <;> simp
  have hform : (calculateConfidence name date n).1
      = round2 (max 0 (min 100 (name * 1 + date -
          (if n ≤ 1 then 0 else if n = 2 then 5 else 10)))) := by
    simp only [calculateConfidence, NAME_SIMILARITY_WEIGHT, hpen]
  refine ⟨hform, ?_, ?_⟩
  · rw [hform]
    exact round2_nonneg (le_max_left _ _)
  · rw [hform]
    exact round2_le_hundred (max_le (by norm_num) (min_le_left _ _))

/-- Witness for C4 at a concrete score. -/
theorem classification_boundaries_witness :
    determineStatus 97 = .AUTO_MATCHED ∧ determineStatus 60 = .NEEDS_REVIEW ∧
    determineStatus 59 = .UNMATCHED :=
  ⟨(classification_boundaries 97).1.mpr (by norm_num),
   (classification_boundaries 60).2.1.mpr (by norm_num),
   (classification_boundaries 59).2.2.mpr (by norm_num)⟩

/-- Witness for C5 at a concrete combiner input. -/
theorem confidence_combiner_witness :
    0 ≤ (calculateConfidence 85 10 1).1 ∧ (calculateConfidence 85 10 1).1 ≤ 100 :=
  ⟨(confidence_combiner 85 10 1).2.1, (confidence_combiner 85 10 1).2.2⟩

/-! ## C10 -/

/-- **C10**: `validateLimit` never raises: missing, empty, non-numeric and
`< 1` limits fall back to the default 50; numeric limits above the maximum
are silently clamped to 100; every other numeric limit is returned
clamped. -/
theorem validate_limit_behavior :
    validateLimit .undef MAX_LIMIT = DEFAULT_LIMIT ∧
    validateLimit .null MAX_LIMIT = DEFAULT_LIMIT ∧
    validateLimit .nan MAX_LIMIT = DEFAULT_LIMIT ∧
    validateLimit (.str "") MAX_LIMIT = DEFAULT_LIMIT ∧
    (∀ s, jsParseInt s = none → validateLimit (.str s) MAX_LIMIT = DEFAULT_LIMIT) ∧
    (∀ s n, jsParseInt s = some n → (n : ℚ) < 1 →
      validateLimit (.str s) MAX_LIMIT = DEFAULT_LIMIT) ∧
    (∀ q : ℚ, q < 1 → validateLimit (.num q) MAX_LIMIT = DEFAULT_LIMIT) ∧
    (∀ q : ℚ, MAX_LIMIT < q → validateLimit (.num q) MAX_LIMIT = MAX_LIMIT) ∧
    (∀ s n, jsParseInt s = some n → MAX_LIMIT < (n : ℚ) →
      validateLimit (.str s) MAX_LIMIT = MAX_LIMIT) ∧
    DEFAULT_LIMIT = 50 ∧ MAX_LIMIT = 100 ∧
    (∀ l mx, validateLimit l mx = DEFAULT_LIMIT ∨
      ∃ q : ℚ, 1 ≤ q ∧ validateLimit l mx = min q mx) := by
  have hdm : (DEFAULT_LIMIT = 50 ∧ MAX_LIMIT = 100) := ⟨rfl, rfl⟩
  refine ⟨rfl, rfl, rfl, rfl, ?_, ?_, ?_, ?_, ?_, rfl, rfl, ?_⟩
  · intro s hs
    by_cases he : s = "" <;> simp [validateLimit, he, hs]
  · intro s n hs hn
    by_cases he : s = ""
    · simp [validateLimit, he]
    · simp [validateLimit, he, hs, hn]
  · intro q hq
    simp [validateLimit, hq]
  · intro q hq
    have h1 : ¬ q < 1 := by unfold MAX_LIMIT at hq; linarith
    simp [validateLimit, h1, min_eq_right (le_of_lt hq)]
  · intro s n hs hn
    have h1 : ¬ (n : ℚ) < 1 := by unfold MAX_LIMIT at hn; linarith
    have he : s ≠ "" := by
      intro h
      rw [h] at hs
      simp [jsParseInt] at hs
    simp [validateLimit, he, hs, h1, min_eq_right (le_of_lt hn)]
  · intro l mx
    match l with
    | .undef => exact Or.inl rfl
    | .null => exact Or.inl rfl
    | .nan => exact Or.inl rfl
    | .num q =>
        by_cases hq : q < 1
        · exact Or.inl (by simp [validateLimit, hq])
        · exact Or.inr ⟨q, le_of_not_lt hq, by simp [validateLimit, hq]⟩
    | .str s =>
        by_cases he : s = ""
        · exact Or.inl (by simp [validateLimit, he])
        · match hp : jsParseInt s with
          | none => exact Or.inl (by simp [validateLimit, he, hp])
          | some n =>
              by_cases hn : (n : ℚ) < 1
              · exact Or.inl (by simp [validateLimit, he, hp, hn])
              · exact Or.inr ⟨n, le_of_not_lt hn, by simp [validateLimit, he, hp, hn]⟩

/-- Witness for C10 at concrete inputs. -/
theorem validate_limit_behavior_witness :
    validateLimit (.str "abc") MAX_LIMIT = DEFAULT_LIMIT ∧
    validateLimit (.num 250) MAX_LIMIT = MAX_LIMIT := by
  refine ⟨?_, ?_⟩
  · exact validate_limit_behavior.2.2.2.2.1 "abc" rfl
  · exact validate_limit_behavior.2.2.2.2.2.2.2.1 250 (by norm_num [MAX_LIMIT])

theorem find?_update_self (l : List BankTransaction) (tid : String)
    (t t' : BankTransaction)
    (hfind : l.find? (fun x => x.id = tid) = some t) (hid : t'.id = tid) :
    (updateTransactionRow l tid t').find? (fun x => x.id = tid) = some t' := by
  induction l with
  | nil => simp at hfind
  | cons a l ih =>
      by_cases ha : a.id = tid
      · simp [updateTransactionRow, ha, hid]
      · rw [List.find?_cons_of_neg _ (by simpa using ha)] at hfind
        have htl := ih hfind
        simp only [updateTransactionRow, List.map_cons, if_neg ha] at htl ⊢
        rw [List.find?_cons_of_neg _ (by simpa using ha)]
        exact htl

/-! ## C2 -/

/-- **C2**: every admin action (confirm, reject, manual-match,
mark-external) invoked on a transaction whose current status is outside the
action's allowed-from set fails with the `invalid_state` error (an
`AppError.badRequest`, HTTP 400) and returns the store — transaction rows
and audit table — exactly as it was. -/
theorem invalid_state_rejected (a : AdminAction) (st : DbState)
    (tid pby : String) (t : BankTransaction)
    (hfind : getTransaction st tid = some t)
    (hdis : t.status ∉ a.allowedFrom) :
    applyAdminAction a st tid pby =
      (st, .error (AppError.badRequest
        (invalidTransitionMessage a.actionName t.status a.allowedFrom))) := by
  cases a with
  | confirm =>
      simp only [AdminAction.allowedFrom] at hdis
      simp [applyAdminAction, confirmMatch, hfind, validateStatusTransition,
        if_neg hdis, AdminAction.actionName, AdminAction.allowedFrom]
  | reject reason =>
      simp only [AdminAction.allowedFrom] at hdis
      simp [applyAdminAction, rejectMatch, hfind, validateStatusTransition,
        if_neg hdis, AdminAction.actionName, AdminAction.allowedFrom]
  | manual_match invoiceId reason =>
      simp only [AdminAction.allowedFrom] at hdis
      simp [applyAdminAction, manualMatch, hfind, validateStatusTransition,
        if_neg hdis, AdminAction.actionName, AdminAction.allowedFrom]
  | mark_external reason =>
      simp only [AdminAction.allowedFrom] at hdis
      simp [applyAdminAction, markExternal, hfind, validateStatusTransition,
        if_neg hdis, AdminAction.actionName, AdminAction.allowedFrom]

/-- Witness for C2: a `confirm` on a `pending` transaction is rejected with
the 400 `invalid_state` error and the store is untouched. -/
theorem invalid_state_rejected_witness :
    (applyAdminAction .confirm (dbSample .pending none) "t1" "admin").1
      = dbSample .pending none ∧
    (applyAdminAction .confirm (dbSample .pending none) "t1" "admin").2
      = .error (AppError.badRequest
          (invalidTransitionMessage "confirm" .pending CONFIRMABLE_STATUSES)) := by
  have h := invalid_state_rejected .confirm (dbSample .pending none) "t1" "admin"
    (txSample .pending none) (by decide) (by decide)
  rw [h]
  exact ⟨rfl, rfl⟩

/-! ## C8 -/

/-- **C8**: from an allowed source state (`auto_matched` or
`needs_review`), `confirm` sets the status to `confirmed` leaving
`matched_invoice_id` and every other field of the row unchanged, while
`reject` sets the status to `unmatched` and clears `matched_invoice_id`,
leaving every other field unchanged. -/
theorem confirm_reject_effects (st : DbState) (tid pby : String)
    (reason : Option String) (t : BankTransaction)
    (hfind : getTransaction st tid = some t)
    (hs : t.status ∈ CONFIRMABLE_STATUSES) :
    (confirmMatch st tid pby).2
        = .ok { transaction := { t with status := .confirmed },
                auditLogId := st.audit.length } ∧
    getTransaction (confirmMatch st tid pby).1 tid
        = some { t with status := .confirmed } ∧
    (rejectMatch st tid pby reason).2
        = .ok { transaction := { t with status := .unmatched, matchedInvoiceId := none },
                auditLogId := st.audit.length } ∧
    getTransaction (rejectMatch st tid pby reason).1 tid
        = some { t with status := .unmatched, matchedInvoiceId := none } := by
  have hs' : t.status ∈ REJECTABLE_STATUSES := by
    simpa [REJECTABLE_STATUSES, CONFIRMABLE_STATUSES] using hs
  have hid : t.id = tid := by
    have := List.find?_some hfind
    simpa using this
  refine ⟨?_, ?_, ?_, ?_⟩
  · simp [confirmMatch, hfind, validateStatusTransition, if_pos hs]
  · simp only [confirmMatch, hfind, validateStatusTransition, if_pos hs]
    exact find?_update_self st.transactions tid t _ hfind hid
  · simp [rejectMatch, hfind, validateStatusTransition, if_pos hs']
  · simp only [rejectMatch, hfind, validateStatusTransition, if_pos hs']
    exact find?_update_self st.transactions tid t _ hfind hid

/-- Witness for C8: a concrete `auto_matched` transaction is confirmed
(keeping its invoice) and rejected (clearing it). -/
theorem confirm_reject_effects_witness :
    (confirmMatch (dbSample .auto_matched (some "inv1")) "t1" "admin").2
      = .ok { transaction := { txSample .auto_matched (some "inv1") with status := .confirmed }
              auditLogId := 0 } ∧
    (rejectMatch (dbSample .auto_matched (some "inv1")) "t1" "admin" none).2
      = .ok { transaction := { txSample .auto_matched (some "inv1") with
                status := .unmatched, matchedInvoiceId := none }
              auditLogId := 0 } := by
  have h := confirm_reject_effects (dbSample .auto_matched (some "inv1")) "t1" "admin" none
    (txSample .auto_matched (some "inv1")) (by decide) (by decide)
  exact ⟨h.1, h.2.2.1⟩

/-! ### Matcher decomposition lemmas -/

theorem matchTransaction_cons_fields (jw : String → String → ℚ)
    (t : BankTransactionInput) (c : InvoiceInput) (rest : List InvoiceInput) :
    (matchTransaction jw t (c :: rest)).confidenceScore = scoreOf jw t c rest ∧
    (matchTransaction jw t (c :: rest)).status = determineStatus (scoreOf jw t c rest) ∧
    (matchTransaction jw t (c :: rest)).matchedInvoiceId
      = (if determineStatus (scoreOf jw t c rest) = .UNMATCHED then none
         else some (bestOf jw t c rest).invoice.id) := by
  have hpart : scoredOf jw t
      = scoreCandidate jw (normalizeName t.description) t.transactionDate := rfl
  refine ⟨?_, ?_, ?_⟩
  · simp only [matchTransaction, scoreOf, bestOf, scoredOf, hpart]
    split <;> rfl
  · simp only [matchTransaction, scoreOf, bestOf, scoredOf, hpart]
    split <;> rfl
  · simp only [matchTransaction, scoreOf, bestOf, scoredOf, hpart]
    split
    next hcond => simp only [if_pos hcond]
    next hcond => simp only [if_neg hcond]

theorem matchTransaction_unmatched_id (jw : String → String → ℚ)
    (t : BankTransactionInput) (cs : List InvoiceInput)
    (h : (matchTransaction jw t cs).status = .UNMATCHED) :
    (matchTransaction jw t cs).matchedInvoiceId = none := by
  cases cs with
  | nil => rfl
  | cons c rest =>
      have hf := matchTransaction_cons_fields jw t c rest
      rw [hf.2.1] at h
      rw [hf.2.2, if_pos h]

/-! ## C6 -/

/-- **C6**: whenever the matcher classifies a transaction as `UNMATCHED` —
including on the empty candidate list — the returned `matched_invoice_id`
is null, even when a best-scoring candidate was identified. -/
theorem unmatched_returns_no_invoice (jw : String → String → ℚ)
    (t : BankTransactionInput) (cs : List InvoiceInput)
    (h : (matchTransaction jw t cs).status = .UNMATCHED) :
    (matchTransaction jw t cs).matchedInvoiceId = none :=
  matchTransaction_unmatched_id jw t cs h

/-- Witness for C6 on the empty candidate list. -/
theorem unmatched_returns_no_invoice_witness :
    (matchTransaction jwZero
      { transactionDate := 0, description := "D", amount := 0 } []).matchedInvoiceId = none :=
  unmatched_returns_no_invoice jwZero
    { transactionDate := 0, description := "D", amount := 0 } [] rfl

theorem calculateConfidence_fst (name date : ℚ) (n : ℕ) :
    (calculateConfidence name date n).1
      = round2 (max 0 (min 100
          (name * NAME_SIMILARITY_WEIGHT + date - calculateAmbiguityPenalty n))) := rfl

/-! ## C9 -/

/-- **C9**: for every transaction whose description normalizes to the empty
string and every non-empty candidate list, the matcher computes name
similarity 0 for every candidate, a confidence score of at most 15,
classification `UNMATCHED`, and a null `matched_invoice_id`. -/
theorem empty_description_unmatched (jw : String → String → ℚ)
    (t : BankTransactionInput) (c : InvoiceInput) (rest : List InvoiceInput)
    (hdesc : normalizeName t.description = "") :
    (∀ inv ∈ c :: rest, (scoredOf jw t inv).nameSimilarity = 0) ∧
    (matchTransaction jw t (c :: rest)).confidenceScore ≤ 15 ∧
    (matchTransaction jw t (c :: rest)).status = .UNMATCHED ∧
    (matchTransaction jw t (c :: rest)).matchedInvoiceId = none := by
  have hsim : ∀ inv : InvoiceInput, (scoredOf jw t inv).nameSimilarity = 0 := by
    intro inv
    simp [scoredOf, scoreCandidate, hdesc, calculateNameSimilarityOrderIndependent]
  have hmem := reduceBest_mem (scoredOf jw t c) (rest.map (scoredOf jw t))
  have hbest_sim : (bestOf jw t c rest).nameSimilarity = 0 := by
    rcases List.mem_cons.mp hmem with h | h
    · rw [bestOf, h]; exact hsim c
    · rcases List.mem_map.mp h with ⟨inv, _, hinv⟩
      rw [bestOf, ← hinv]; exact hsim inv
  have hbest_date : (bestOf jw t c rest).dateScore ≤ 15 := by
    have hds : ∀ inv : InvoiceInput, (scoredOf jw t inv).dateScore ≤ 15 := by
      intro inv
      simp only [scoredOf, scoreCandidate]
      exact dateScore_le_15 _ _
    rcases List.mem_cons.mp hmem with h | h
    · rw [bestOf, h]; exact hds c
    · rcases List.mem_map.mp h with ⟨inv, _, hinv⟩
      rw [bestOf, ← hinv]; exact hds inv
  have hpen := ambiguityPenalty_nonneg (c :: rest).length
  have hscore : scoreOf jw t c rest ≤ 15 := by
    rw [scoreOf, calculateConfidence_fst, hbest_sim]
    refine round2_le_fifteen (max_le (by norm_num) ?_)
    calc min 100 (0 * NAME_SIMILARITY_WEIGHT + (bestOf jw t c rest).dateScore
            - calculateAmbiguityPenalty (c :: rest).length)
        ≤ 0 * NAME_SIMILARITY_WEIGHT + (bestOf jw t c rest).dateScore
            - calculateAmbiguityPenalty (c :: rest).length := min_le_right _ _
      _ ≤ 15 := by simp only [NAME_SIMILARITY_WEIGHT]; linarith
  have hfields := matchTransaction_cons_fields jw t c rest
  have hstatus : (matchTransaction jw t (c :: rest)).status = .UNMATCHED := by
    rw [hfields.2.1]
    simp only [determineStatus, AUTO_MATCHED_THRESHOLD, NEEDS_REVIEW_THRESHOLD]
    rw [if_neg (by simp only [ge_iff_le]; linarith),
        if_neg (by simp only [ge_iff_le]; linarith)]
  refine ⟨fun inv _ => hsim inv, ?_, hstatus, ?_⟩
  · rw [hfields.1]; exact hscore
  · exact matchTransaction_unmatched_id jw t (c :: rest) hstatus

/-- Witness for C9: `"PAYMENT FROM THE"` normalizes to the empty string and
yields an `UNMATCHED`, invoice-free result against a non-empty candidate
list. -/
theorem empty_description_unmatched_witness :
    (matchTransaction jwZero txNoise [invAcme]).status = .UNMATCHED ∧
    (matchTransaction jwZero txNoise [invAcme]).matchedInvoiceId = none := by
  have h := empty_description_unmatched jwZero txNoise invAcme [] (by decide)
  exact ⟨h.2.2.1, h.2.2.2⟩

/-! ### First-maximum characterization of `reduceBest` -/

theorem reduceBest_eq_self (b : CandidateScore) (l : List CandidateScore)
    (h : (reduceBest b l).preliminaryScore = b.preliminaryScore) :
    reduceBest b l = b := by
  induction l generalizing b with
  | nil => rfl
  | cons c rest ih =>
      unfold reduceBest at h ⊢
      by_cases hc : c.preliminaryScore > b.preliminaryScore
      · rw [if_pos hc] at h ⊢
        have hge := reduceBest_le c rest c (List.mem_cons_self c rest)
        exfalso
        rw [h] at hge
        linarith
      · rw [if_neg hc] at h ⊢
        exact ih b h

theorem reduceBest_init_switch (x y : CandidateScore) (rest : List CandidateScore)
    (hxy : x.preliminaryScore ≤ y.preliminaryScore) :
    (y.preliminaryScore < (reduceBest x rest).preliminaryScore →
        reduceBest y rest = reduceBest x rest) ∧
    (¬ y.preliminaryScore < (reduceBest x rest).preliminaryScore →
        reduceBest y rest = y) := by
  induction rest generalizing x y with
  | nil =>
      refine ⟨fun h => absurd h (by simp [reduceBest]; linarith), fun _ => rfl⟩
  | cons e rest ih =>
      by_cases hey : e.preliminaryScore > y.preliminaryScore
      · have hex : x.preliminaryScore < e.preliminaryScore := lt_of_le_of_lt hxy hey
        unfold reduceBest
        rw [if_pos hey, if_pos hex]
        refine ⟨fun _ => rfl, fun hn => absurd ?_ hn⟩
        exact lt_of_lt_of_le hey (reduceBest_le e rest e (List.mem_cons_self e rest))
      · by_cases hex : e.preliminaryScore > x.preliminaryScore
        · unfold reduceBest
          rw [if_pos hex, if_neg hey]
          exact ih e y (le_of_not_lt hey)
        · unfold reduceBest
          rw [if_neg hex, if_neg hey]
          exact ih x y hxy

theorem reduceBest_first_max (b : CandidateScore) (l : List CandidateScore) :
    (b :: l).find?
        (fun x => (reduceBest b l).preliminaryScore ≤ x.preliminaryScore)
      = some (reduceBest b l) := by
  induction l generalizing b with
  | nil => simp [reduceBest]
  | cons c rest ih =>
      by_cases hc : c.preliminaryScore > b.preliminaryScore
      · have hR : reduceBest b (c :: rest) = reduceBest c rest := by
          conv_lhs => rw [reduceBest]
          rw [if_pos hc]
        rw [hR]
        have hRge := reduceBest_le c rest c (List.mem_cons_self c rest)
        have hb : ¬ ((reduceBest c rest).preliminaryScore ≤ b.preliminaryScore) := by
          intro hle; linarith
        rw [List.find?_cons_of_neg _ (by simpa using hb)]
        exact ih c
      · have hR : reduceBest b (c :: rest) = reduceBest b rest := by
          conv_lhs => rw [reduceBest]
          rw [if_neg hc]
        rw [hR]
        by_cases hbR : (reduceBest b rest).preliminaryScore ≤ b.preliminaryScore
        · have hbR' : (reduceBest b rest).preliminaryScore = b.preliminaryScore :=
            le_antisymm hbR (reduceBest_le b rest b (List.mem_cons_self b rest))
          rw [reduceBest_eq_self b rest hbR']
          exact List.find?_cons_of_pos _ (by simp)
        · rw [List.find?_cons_of_neg _ (by simpa using hbR)]
          have hxy : c.preliminaryScore ≤ b.preliminaryScore := le_of_not_lt hc
          have hF := reduceBest_init_switch c b rest hxy
          by_cases hcb : b.preliminaryScore < (reduceBest c rest).preliminaryScore
          · have heq : reduceBest b rest = reduceBest c rest := hF.1 hcb
            rw [heq]
            exact ih c
          · rw [hF.2 hcb] at hbR
            exact absurd (le_refl _) hbR

theorem eq_of_pairwise_ne_mem {l : List CandidateScore}
    (hp : l.Pairwise (fun x y => x.preliminaryScore ≠ y.preliminaryScore))
    {a b : CandidateScore} (ha : a ∈ l) (hb : b ∈ l)
    (hs : a.preliminaryScore = b.preliminaryScore) : a = b := by
  induction l with
  | nil => simp at ha
  | cons x xs ih =>
      rcases List.pairwise_cons.mp hp with ⟨hx, hxs⟩
      rcases List.mem_cons.mp ha with rfl | ha'
      · rcases List.mem_cons.mp hb with rfl | hb'
        · rfl
        · exact absurd hs (hx b hb')
      · rcases List.mem_cons.mp hb with rfl | hb'
        · exact absurd hs.symm (hx a ha')
        · exact ih hxs ha' hb'

/-! ## C1 -/

/-- **C1 (amended)**: on a non-empty candidate list the matcher selects the
*first* candidate (in list order) attaining the highest preliminary score
(`name_similarity * 0.7 + date_score`) — ties are broken by earlier list
position, not by smaller candidate id; consequently the returned
`matched_invoice_id` is invariant under permutations of the candidate list
whenever the preliminary scores are pairwise distinct (with ties a
reordering may change the result, see the counterexample). -/
theorem best_candidate_selection (jw : String → String → ℚ)
    (t : BankTransactionInput) (c : InvoiceInput) (rest : List InvoiceInput)
    (c' : InvoiceInput) (rest' : List InvoiceInput)
    (hperm : (c :: rest).Perm (c' :: rest'))
    (hdist : ((c :: rest).map (scoredOf jw t)).Pairwise
      (fun x y => x.preliminaryScore ≠ y.preliminaryScore)) :
    ((scoredOf jw t c :: rest.map (scoredOf jw t)).find?
        (fun s => (bestOf jw t c rest).preliminaryScore ≤ s.preliminaryScore)
      = some (bestOf jw t c rest)) ∧
    (matchTransaction jw t (c' :: rest')).matchedInvoiceId
      = (matchTransaction jw t (c :: rest)).matchedInvoiceId := by
  have hfirst := reduceBest_first_max (scoredOf jw t c) (rest.map (scoredOf jw t))
  refine ⟨hfirst, ?_⟩
  -- the two scored lists are permutations of each other
  have hpermS : ((c :: rest).map (scoredOf jw t)).Perm ((c' :: rest').map (scoredOf jw t)) :=
    hperm.map (scoredOf jw t)
  have hmem1 : bestOf jw t c rest ∈ (c :: rest).map (scoredOf jw t) := by
    rw [List.map_cons]
    exact reduceBest_mem _ _
  have hmem2 : bestOf jw t c' rest' ∈ (c' :: rest').map (scoredOf jw t) := by
    rw [List.map_cons]
    exact reduceBest_mem _ _
  have hmem2' : bestOf jw t c' rest' ∈ (c :: rest).map (scoredOf jw t) :=
    hpermS.symm.subset hmem2
  have hmem1' : bestOf jw t c rest ∈ (c' :: rest').map (scoredOf jw t) :=
    hpermS.subset hmem1
  have hle1 : (bestOf jw t c' rest').preliminaryScore ≤ (bestOf jw t c rest).preliminaryScore := by
    have := reduceBest_le (scoredOf jw t c) (rest.map (scoredOf jw t))
      (bestOf jw t c' rest') (by rw [← List.map_cons]; exact hmem2')
    exact this
  have hle2 : (bestOf jw t c rest).preliminaryScore ≤ (bestOf jw t c' rest').preliminaryScore := by
    have := reduceBest_le (scoredOf jw t c') (rest'.map (scoredOf jw t))
      (bestOf jw t c rest) (by rw [← List.map_cons]; exact hmem1')
    exact this
  have hbeq : bestOf jw t c' rest' = bestOf jw t c rest :=
    eq_of_pairwise_ne_mem hdist hmem2' hmem1 (le_antisymm hle1 hle2)
  have hlen : (c' :: rest').length = (c :: rest).length := (hperm.length_eq).symm
  have hscore : scoreOf jw t c' rest' = scoreOf jw t c rest := by
    rw [scoreOf, scoreOf, hbeq, hlen]
  have hf1 := matchTransaction_cons_fields jw t c rest
  have hf2 := matchTransaction_cons_fields jw t c' rest'
  rw [hf1.2.2, hf2.2.2, hscore, hbeq]

/-- Witness for C1 (amended): with pairwise-distinct preliminary scores the
returned invoice id does not change under reordering. -/
theorem best_candidate_selection_witness :
    (matchTransaction jwZero txAcme [invZed, invAcme]).matchedInvoiceId
      = (matchTransaction jwZero txAcme [invAcme, invZed]).matchedInvoiceId := by
  have hn1 : normalizeName "ACME" = "ACME" := by decide
  have hn2 : normalizeName "Acme" = "ACME" := by decide
  have hn3 : normalizeName "ZZZZ" = "ZZZZ" := by decide
  have hs1 : sortWordsJs "ACME" = "ACME" := by decide
  have hs2 : sortWordsJs "ZZZZ" = "ZZZZ" := by decide
  have hne1 : ("ACME" : String) ≠ "" := by decide
  have hne2 : ("ZZZZ" : String) ≠ "" := by decide
  have hne3 : ("ACME" : String) ≠ "ZZZZ" := by decide
  have hdist : (([invAcme, invZed] : List InvoiceInput).map (scoredOf jwZero txAcme)).Pairwise
      (fun x y => x.preliminaryScore ≠ y.preliminaryScore) := by
    simp only [List.map_cons, List.map_nil, List.pairwise_cons, List.mem_cons,
      List.mem_singleton, List.not_mem_nil, List.Pairwise.nil, and_true]
    norm_num [scoredOf, scoreCandidate, txAcme, invAcme, invZed, hn1, hn2, hn3,
      hs1, hs2, hne1, hne2, hne3, jwZero,
      calculateNameSimilarityOrderIndependent, calculateNameSimilarity,
      calculateDateScore, daysBetween, round2]
  have h := best_candidate_selection jwZero txAcme invAcme [invZed] invZed [invAcme]
    (by decide) hdist
  exact h.2

/-- Counterexample to C1 as stated: two candidates with identical
preliminary scores — the matcher keeps the *first-listed* one (`"b"`),
not the one with the smaller id (`"a"`), and reordering the list changes
the returned `matched_invoice_id`. -/
theorem best_candidate_selection_counterexample :
    (matchTransaction jwZero txAcme [invTieB, invTieA]).matchedInvoiceId = some "b" ∧
    (matchTransaction jwZero txAcme [invTieA, invTieB]).matchedInvoiceId = some "a" ∧
    invTieA.id < invTieB.id ∧
    (scoredOf jwZero txAcme invTieA).preliminaryScore
      = (scoredOf jwZero txAcme invTieB).preliminaryScore := by
  have hnorm : normalizeName "ACME" = "ACME" := by decide
  have hsort : sortWordsJs "ACME" = "ACME" := by decide
  have hne : ("ACME" : String) ≠ "" := by decide
  refine ⟨?_, ?_, by rw [String.lt_iff_toList_lt]; decide, by rfl⟩ <;>
    · norm_num [matchTransaction, scoreCandidate, txAcme, invTieA, invTieB,
        hnorm, hsort, hne,
        calculateNameSimilarityOrderIndependent, calculateNameSimilarity,
        reduceBest, calculateDateScore, daysBetween, calculateConfidence,
        calculateAmbiguityPenalty, determineStatus, AUTO_MATCHED_THRESHOLD,
        NEEDS_REVIEW_THRESHOLD, NAME_SIMILARITY_WEIGHT, round2]
      decide

/-! ## C3 -/

/-- **C3 (amended)**: for every CSV row consumed by the batch worker, a row
whose amount is unparsable or `≤ 0` is skipped silently, and a row whose
`transaction_date` (falling back to `date`) is invalid or missing is
skipped silently; skipped rows are not counted toward the batch total.
But the parsed amount is stored at full parsed precision — it is *not*
rounded to 2 decimal places — and an empty (or missing) trimmed
description does *not* cause a skip: the row is kept with an empty
description. -/
theorem worker_row_parsing (rows : List CsvRow) (row : CsvRow) :
    batchTotal rows = (rows.filter (fun r => (parseWorkerRow r).isSome)).length ∧
    (parseWorkerRow row = none ↔
      jsParseFloat (workerAmountStr row) = none ∨
      (∃ a, jsParseFloat (workerAmountStr row) = some a ∧ a ≤ 0) ∨
      (∃ a, jsParseFloat (workerAmountStr row) = some a ∧ 0 < a ∧ workerDate row = none)) ∧
    (∀ pr, parseWorkerRow row = some pr →
      pr.description = row.description.getD "" ∧
      jsParseFloat (workerAmountStr row) = some pr.amount ∧
      workerDate row = some pr.transactionDate ∧
      pr.referenceNumber = jsOr row.reference_number row.reference) := by
  refine ⟨?_, ?_, ?_⟩
  · rw [batchTotal, parseAllRows]
    induction rows with
    | nil => rfl
    | cons r l ih =>
        cases h : parseWorkerRow r <;>
          simp [List.filterMap_cons, List.filter_cons, h, ih]
  · unfold parseWorkerRow
    cases hf : jsParseFloat (workerAmountStr row) with
    | none => simp [hf]
    | some a =>
        by_cases ha : a ≤ 0
        · simp [hf, ha]
        · cases hd : workerDate row with
          | none => simp [hf, ha, hd, lt_of_not_le ha]
          | some d => simp [hf, ha, hd]
  · intro pr hpr
    unfold parseWorkerRow at hpr
    cases hf : jsParseFloat (workerAmountStr row) with
    | none => simp [hf] at hpr
    | some a =>
        simp only [hf] at hpr
        by_cases ha : a ≤ 0
        · rw [if_pos ha] at hpr; simp at hpr
        · rw [if_neg ha] at hpr
          cases hd : workerDate row with
          | none => simp [hd] at hpr
          | some d =>
              simp only [hd, Option.some.injEq] at hpr
              subst hpr
              exact ⟨rfl, rfl, rfl, rfl⟩

/-- Witness for C3 (amended) on a concrete kept row with an empty
description. -/
theorem worker_row_parsing_witness :
    prEmptyDesc.description = rowEmptyDesc.description.getD "" ∧
    jsParseFloat (workerAmountStr rowEmptyDesc) = some prEmptyDesc.amount ∧
    workerDate rowEmptyDesc = some prEmptyDesc.transactionDate ∧
    prEmptyDesc.referenceNumber = jsOr rowEmptyDesc.reference_number rowEmptyDesc.reference := by
  have hval : decimalValue 1 10 5 3 0 = 2001/200 := by norm_num [decimalValue]
  have hpos : ¬ (decimalValue 1 10 5 3 0 ≤ 0) := by rw [hval]; norm_num
  have hsome : parseWorkerRow rowEmptyDesc = some prEmptyDesc := by
    have hamt : jsParseFloat (workerAmountStr rowEmptyDesc)
        = some (decimalValue 1 10 5 3 0) := rfl
    have hdate : workerDate rowEmptyDesc = some 19737 := by decide
    simp only [parseWorkerRow, hamt, if_neg hpos, hdate]
    rfl
  exact (worker_row_parsing [] rowEmptyDesc).2.2 prEmptyDesc hsome

/-- Counterexample to C3 as stated: the worker keeps a row whose
description is empty (instead of skipping it), and stores the amount
`10.005` unrounded (half-away-from-zero rounding would give `10.01`). -/
theorem worker_row_parsing_counterexample :
    (parseWorkerRow rowEmptyDesc).map ParsedRow.description = some "" ∧
    (parseWorkerRow rowEmptyDesc).map ParsedRow.amount = some (2001/200) ∧
    round2 (2001/200) = 1001/100 ∧
    (2001 : ℚ)/200 ≠ 1001/100 := by
  have hval : decimalValue 1 10 5 3 0 = 2001/200 := by norm_num [decimalValue]
  have hpos : ¬ (decimalValue 1 10 5 3 0 ≤ 0) := by rw [hval]; norm_num
  have hamt : jsParseFloat (workerAmountStr rowEmptyDesc)
      = some (decimalValue 1 10 5 3 0) := rfl
  have hdate : workerDate rowEmptyDesc = some 19737 := by decide
  refine ⟨?_, ?_, by norm_num [round2], by norm_num⟩ <;>
    · simp only [parseWorkerRow, hamt, if_neg hpos, hdate]
      simp [rowEmptyDesc, hval]

/-! ### base64url / JSON round-trip lemmas -/

theorem base64Val_base64Char : ∀ n < 64, base64Val (base64Char n) = some n := by decide

theorem base64url_roundtrip : ∀ (bs : List ℕ), (∀ b ∈ bs, b < 256) →
    base64urlDecodeChars (base64urlEncodeBytes bs) = some bs
  | [], _ => rfl
  | [b1], h => by
      have hb1 : b1 < 256 := h b1 (by simp)
      have h1 := base64Val_base64Char (b1 / 4) (by omega)
      have h2 := base64Val_base64Char (b1 % 4 * 16) (by omega)
      simp [base64urlEncodeBytes, base64urlDecodeChars, h1, h2]
      omega
  | [b1, b2], h => by
      have hb1 : b1 < 256 := h b1 (by simp)
      have hb2 : b2 < 256 := h b2 (by simp)
      have h1 := base64Val_base64Char (b1 / 4) (by omega)
      have h2 := base64Val_base64Char (b1 % 4 * 16 + b2 / 16) (by omega)
      have h3 := base64Val_base64Char (b2 % 16 * 4) (by omega)
      simp [base64urlEncodeBytes, base64urlDecodeChars, h1, h2, h3]
      omega
  | b1 :: b2 :: b3 :: rest, h => by
      have hb1 : b1 < 256 := h b1 (by simp)
      have hb2 : b2 < 256 := h b2 (by simp)
      have hb3 : b3 < 256 := h b3 (by simp)
      have ih := base64url_roundtrip rest (fun b hb => h b (by simp [hb]))
      have h1 := base64Val_base64Char (b1 / 4) (by omega)
      have h2 := base64Val_base64Char (b1 % 4 * 16 + b2 / 16) (by omega)
      have h3 := base64Val_base64Char (b2 % 16 * 4 + b3 / 64) (by omega)
      have h4 := base64Val_base64Char (b3 % 64) (by omega)
      simp [base64urlEncodeBytes, base64urlDecodeChars, h1, h2, h3, h4, ih]
      omega

theorem mk_toList (s : String) : String.mk s.toList = s := rfl

theorem bytesToStr_strToBytes (s : String) : bytesToStr (strToBytes s) = s := by
  simp only [bytesToStr, strToBytes, List.map_map, Function.comp_def, Char.ofNat_toNat,
    List.map_id_fun', id]
  exact mk_toList s

theorem strToBytes_lt (s : String) (h : ∀ c ∈ s.toList, c.toNat < 256) :
    ∀ b ∈ strToBytes s, b < 256 := by
  intro b hb
  rcases List.mem_map.mp hb with ⟨c, hc, rfl⟩
  exact h c hc

theorem jsonEscapeChar_plain {c : Char} (h : asciiPlainChar c = true) :
    jsonEscapeChar c = [c] := by
  simp only [asciiPlainChar, Bool.decide_and, Bool.and_eq_true, decide_eq_true_eq] at h
  obtain ⟨h1, h2, h3, h4⟩ := h
  have hbk : c.toNat ≠ 8 := by omega
  have htb : c.toNat ≠ 9 := by omega
  have hnl : c.toNat ≠ 10 := by omega
  have hff : c.toNat ≠ 12 := by omega
  have hcr : c.toNat ≠ 13 := by omega
  have hctl : ¬ c.toNat < 32 := by omega
  unfold jsonEscapeChar
  rw [if_neg h3, if_neg h4, if_neg hbk, if_neg htb, if_neg hnl, if_neg hff,
    if_neg hcr, if_neg hctl]

theorem jsonFlatten_plain : ∀ (l : List Char), (∀ c ∈ l, asciiPlainChar c = true) →
    (l.map jsonEscapeChar).flatten = l
  | [], _ => rfl
  | c :: rest, h => by
      rw [List.map_cons, List.flatten_cons, jsonEscapeChar_plain (h c (by simp)),
        jsonFlatten_plain rest (fun x hx => h x (by simp [hx]))]
      rfl

theorem readJsonStringLit_plain :
    ∀ (l rest : List Char), (∀ c ∈ l, asciiPlainChar c = true) →
      readJsonStringLit (l ++ '"' :: rest) = some (l, rest)
  | [], rest, _ => by
      rw [List.nil_append, readJsonStringLit.eq_def]
      simp
  | c :: l, rest, h => by
      have hc := h c (by simp)
      have hq : c ≠ '"' := by
        intro hq; subst hq; exact absurd hc (by decide)
      have hbs : c ≠ '\\' := by
        intro hb; subst hb; exact absurd hc (by decide)
      rw [List.cons_append, readJsonStringLit.eq_def]
      simp only [if_neg hq, if_neg hbs,
        readJsonStringLit_plain l rest (fun x hx => h x (by simp [hx]))]

theorem dropExact_append : ∀ (p l : List Char), dropExact p (p ++ l) = some l
  | [], _ => rfl
  | c :: p, l => by simp [dropExact, dropExact_append p l]

theorem toList_cursorJson (d i : String)
    (hd : ∀ c ∈ d.toList, asciiPlainChar c = true)
    (hi : ∀ c ∈ i.toList, asciiPlainChar c = true) :
    (cursorJson d i).toList
      = "\x7b\"createdAt\":\"".toList
          ++ (d.toList ++ ('"' :: (",\"id\":\"".toList
            ++ (i.toList ++ ('"' :: "\x7d".toList))))) := by
  have hA : ("\x7b\"createdAt\":\"" : String).data
      = ("\x7b\"createdAt\":" : String).data ++ ['"'] := by decide
  have hB : (",\"id\":\"" : String).data
      = (",\"id\":" : String).data ++ ['"'] := by decide
  have hq : ("\"" : String).data = ['"'] := by decide
  show (cursorJson d i).data
      = ("\x7b\"createdAt\":\"" : String).data
          ++ (d.data ++ ('"' :: ((",\"id\":\"" : String).data
            ++ (i.data ++ ('"' :: ("\x7d" : String).data)))))
  simp only [cursorJson, jsonQuote, String.data_append, hA, hB, hq,
    jsonFlatten_plain d.toList hd, jsonFlatten_plain i.toList hi]
  simp [String.toList, List.append_assoc]

theorem parseCursorJson_cursorJson (d i : String)
    (hd : asciiPlainStr d = true) (hi : asciiPlainStr i = true) :
    parseCursorJson (cursorJson d i) = some (d, i) := by
  have hd' : ∀ c ∈ d.toList, asciiPlainChar c = true := by
    simpa [asciiPlainStr, List.all_eq_true] using hd
  have hi' : ∀ c ∈ i.toList, asciiPlainChar c = true := by
    simpa [asciiPlainStr, List.all_eq_true] using hi
  have hlist := toList_cursorJson d i hd' hi'
  have hfin : dropExact ("\x7d" : String).toList "\x7d".toList = some [] := by decide
  simp only [parseCursorJson, hlist, dropExact_append,
    readJsonStringLit_plain d.toList _ hd', readJsonStringLit_plain i.toList _ hi',
    hfin, mk_toList]
  simp

/-! ### ISO / UUID side conditions -/

theorem isValidIso_plain {d : String} (h : isValidIsoDateString d = true) :
    asciiPlainStr d = true ∧ d ≠ "" ∧ (parseJsDate d).isSome
      ∧ d.toList.all (fun c => c.toNat < 128) := by
  simp only [isValidIsoDateString, Bool.decide_and, Bool.decide_or, Bool.and_eq_true,
    Bool.or_eq_true, decide_eq_true_eq, List.all_eq_true] at h
  obtain ⟨hsome, hchars⟩ := h
  have hbound : ∀ c ∈ d.toList,
      32 ≤ c.toNat ∧ c.toNat < 128 ∧ c.toNat ≠ 34 ∧ c.toNat ≠ 92 := by
    intro c hc
    rcases hchars c hc with hdig | hrest
    · simp only [isDigitChar, Bool.decide_and, Bool.and_eq_true, decide_eq_true_eq] at hdig
      omega
    · omega
  refine ⟨?_, ?_, ?_, ?_⟩
  · simp only [asciiPlainStr, List.all_eq_true]
    intro c hc
    simp only [asciiPlainChar, Bool.decide_and, Bool.and_eq_true, decide_eq_true_eq]
    exact hbound c hc
  · intro he
    subst he
    exact absurd hsome (by decide)
  · simp only [parseJsDate]
    cases hp : parseIsoDate d with
    | none => rw [hp] at hsome; simp at hsome
    | some v => simp [hp]
  · simp only [List.all_eq_true]
    intro c hc
    simp only [decide_eq_true_eq]
    exact (hbound c hc).2.1

theorem isUuid_shape {i : String} (h : isUuid i = true) :
    asciiPlainStr i = true ∧ i ≠ "" ∧ idShapeOk i = true ∧ i.toList.all (fun c => c.toNat < 128) := by
  simp only [isUuid, Bool.decide_and, Bool.and_eq_true, decide_eq_true_eq,
    List.all_eq_true] at h
  obtain ⟨hlen, hpos⟩ := h
  have hmem : ∀ c ∈ i.toList,
      c = '-' ∨ (48 ≤ c.toNat ∧ c.toNat ≤ 57) ∨ (97 ≤ c.toNat ∧ c.toNat ≤ 102) := by
    intro c hc
    rcases List.mem_iff_getElem.mp hc with ⟨k, hk, hgk⟩
    have hkc : (k, c) ∈ i.toList.enum := by
      rw [List.mk_mem_enum_iff_getElem?]
      exact (List.getElem?_eq_getElem hk).trans (congrArg some hgk)
    have hthis := hpos (k, c) hkc
    by_cases hk4 : k = 8 ∨ k = 13 ∨ k = 18 ∨ k = 23
    · rw [if_pos hk4] at hthis
      exact Or.inl (of_decide_eq_true hthis)
    · rw [if_neg hk4] at hthis
      simp only [Bool.decide_and, Bool.decide_or, Bool.or_eq_true, Bool.and_eq_true,
        decide_eq_true_eq] at hthis
      rcases hthis with h1 | h2
      · exact Or.inr (Or.inl h1)
      · exact Or.inr (Or.inr h2)
  refine ⟨?_, ?_, ?_, ?_⟩
  · simp only [asciiPlainStr, List.all_eq_true]
    intro c hc
    rcases hmem c hc with rfl | hd | hh
    · decide
    · simp only [asciiPlainChar, Bool.decide_and, Bool.and_eq_true, decide_eq_true_eq]
      omega
    · simp only [asciiPlainChar, Bool.decide_and, Bool.and_eq_true, decide_eq_true_eq]
      omega
  · intro he
    subst he
    exact absurd hlen (by decide)
  · simp only [idShapeOk, Bool.decide_and, Bool.and_eq_true, decide_eq_true_eq,
      List.all_eq_true]
    refine ⟨hlen, ?_⟩
    intro c hc
    rcases hmem c hc with rfl | hd | hh
    · decide
    · exact Or.inl hd
    · exact Or.inr (Or.inl hh)
  · simp only [List.all_eq_true]
    intro c hc
    rcases hmem c hc with rfl | hd | hh
    · decide
    · simp only [decide_eq_true_eq]; omega
    · simp only [decide_eq_true_eq]; omega

/-! ## C7 -/

/-- **C7 (amended)**: `decodeCursor(encodeCursor(d, i))` returns exactly
`(d, i)` for every valid ISO-8601 date string `d` and UUID `i`.  The
decoder, however, validates only that the id is 36 characters of hex
digits and hyphens (regex `/^[0-9a-f-]{36}$/i`), not the full UUID shape:
over the encoder's image (plain-ASCII payloads) a cursor is rejected with
the `bad_cursor` error (`AppError.badRequest "Invalid pagination cursor"`)
exactly when `createdAt` is empty or not date-parseable, or the id is
empty or fails the 36-character hex/hyphen test. -/
theorem cursor_round_trip :
    (∀ d i : String, isValidIsoDateString d = true → isUuid i = true →
      decodeCursor (encodeCursor d i) = .ok { createdAt := d, id := i }) ∧
    (∀ d i : String, asciiPlainStr d = true → asciiPlainStr i = true →
      d.toList.all (fun c => c.toNat < 128) = true →
      i.toList.all (fun c => c.toNat < 128) = true →
      decodeCursor (encodeCursor d i)
        = (if d ≠ "" ∧ i ≠ "" ∧ (parseJsDate d).isSome ∧ idShapeOk i = true
           then .ok { createdAt := d, id := i }
           else .error (AppError.badRequest "Invalid pagination cursor"))) := by
  have main : ∀ d i : String, asciiPlainStr d = true → asciiPlainStr i = true →
      d.toList.all (fun c => c.toNat < 128) = true →
      i.toList.all (fun c => c.toNat < 128) = true →
      decodeCursorInner (encodeCursor d i)
        = (if d ≠ "" ∧ i ≠ "" ∧ (parseJsDate d).isSome ∧ idShapeOk i = true
           then some { createdAt := d, id := i } else none) := by
    intro d i hd hi hd128 hi128
    have hd128' : ∀ c ∈ d.toList, c.toNat < 128 := by
      simpa [List.all_eq_true] using hd128
    have hi128' : ∀ c ∈ i.toList, c.toNat < 128 := by
      simpa [List.all_eq_true] using hi128
    have hd' : ∀ c ∈ d.toList, asciiPlainChar c = true := by
      simpa [asciiPlainStr, List.all_eq_true] using hd
    have hi' : ∀ c ∈ i.toList, asciiPlainChar c = true := by
      simpa [asciiPlainStr, List.all_eq_true] using hi
    have hchars : ∀ c ∈ (cursorJson d i).toList, c.toNat < 256 := by
      rw [toList_cursorJson d i hd' hi']
      have hA : ∀ c ∈ ("\x7b\"createdAt\":\"" : String).toList, c.toNat < 256 := by decide
      have hB : ∀ c ∈ (",\"id\":\"" : String).toList, c.toNat < 256 := by decide
      have hC : ∀ c ∈ ("\x7d" : String).toList, c.toNat < 256 := by decide
      intro c hc
      simp only [List.mem_append, List.mem_cons] at hc
      rcases hc with h | h | rfl | h | h | rfl | h
      · exact hA c h
      · have := hd128' c h; omega
      · decide
      · exact hB c h
      · have := hi128' c h; omega
      · decide
      · exact hC c h
    have hbytes := strToBytes_lt _ hchars
    have hdec : base64urlDecodeChars (encodeCursor d i).toList
        = some (strToBytes (cursorJson d i)) := by
      have he : (encodeCursor d i).toList
          = base64urlEncodeBytes (strToBytes (cursorJson d i)) := rfl
      rw [he]
      exact base64url_roundtrip _ hbytes
    have hjson : parseCursorJson (bytesToStr (strToBytes (cursorJson d i))) = some (d, i) := by
      rw [bytesToStr_strToBytes]
      exact parseCursorJson_cursorJson d i hd hi
    simp only [decodeCursorInner, hdec, hjson]
    by_cases h1 : d = ""
    · simp [h1]
    · by_cases h2 : i = ""
      · simp [h1, h2]
      · by_cases h3 : (parseJsDate d).isSome
        · by_cases h4 : idShapeOk i
          · simp [h1, h2, h3, h4, Option.isNone_iff_eq_none,
              Option.isSome_iff_ne_none.mp h3]
          · simp [h1, h2, h3, h4, Option.isNone_iff_eq_none,
              Option.isSome_iff_ne_none.mp h3]
        · have h3' : (parseJsDate d).isNone = true := by
            cases hpd : parseJsDate d with
            | none => rfl
            | some v => rw [hpd] at h3; simp at h3
          simp [h1, h2, h3, h3']
  refine ⟨?_, ?_⟩
  · intro d i hiso huuid
    obtain ⟨hd, hdne, hdsome, hd128⟩ := isValidIso_plain hiso
    obtain ⟨hi, hine, hishape, hi128⟩ := isUuid_shape huuid
    have hm := main d i hd hi hd128 hi128
    simp only [decodeCursor, hm, if_pos (show d ≠ "" ∧ i ≠ "" ∧ (parseJsDate d).isSome
      ∧ idShapeOk i = true from ⟨hdne, hine, hdsome, hishape⟩)]
  · intro d i hd hi h128d h128i
    have hm := main d i hd hi h128d h128i
    by_cases hcond : d ≠ "" ∧ i ≠ "" ∧ (parseJsDate d).isSome ∧ idShapeOk i = true
    · simp only [decodeCursor, hm, if_pos hcond]
    · simp only [decodeCursor, hm, if_neg hcond]

/-- Witness for C7 on a concrete ISO-8601 timestamp and UUID. -/
theorem cursor_round_trip_witness :
    decodeCursor (encodeCursor "2024-01-15T10:30:00.000Z"
        "123e4567-e89b-12d3-a456-426614174000")
      = .ok { createdAt := "2024-01-15T10:30:00.000Z"
              id := "123e4567-e89b-12d3-a456-426614174000" } :=
  cursor_round_trip.1 "2024-01-15T10:30:00.000Z" "123e4567-e89b-12d3-a456-426614174000"
    (by decide) (by decide)

/-- Counterexample to C7 as stated: an id of 36 `'a'`s is not UUID-shaped,
yet the decoder accepts the cursor instead of rejecting it with
`bad_cursor`. -/
theorem cursor_round_trip_counterexample :
    decodeCursor (encodeCursor "2024-01-15" "aaaaaaaaaaaaaaaaaaaaaaaaaaaaaaaaaaaa")
      = .ok { createdAt := "2024-01-15", id := "aaaaaaaaaaaaaaaaaaaaaaaaaaaaaaaaaaaa" } ∧
    isUuid "aaaaaaaaaaaaaaaaaaaaaaaaaaaaaaaaaaaa" = false := by
  decide

end Reconciliation
